import Mathlib

set_option linter.unusedVariables false

/-! Verification development for the azdev developer-tooling suite.

Shallow embedding of the breaking-change collection pipeline
(`azdev/operations/breaking_change/__init__.py`) and the secret scan/mask
engine (`azdev/operations/secret.py`).  Python strings used as scanned text
are modelled as `List Char`; file names and identifiers as `String`;
Python `None`-able values as `Option`; raised exceptions as `Except PyErr`.
External collaborators (the file system, `packaging.version`,
`microsoft_security_utilities_secret_masker`, `fnmatch`, knack message
rendering) are parameters of the embedding, never stubs of repository code. -/

/-- Python exceptions raised by the embedded code. -/
inductive PyErr
  | valueError (msg : String)
  | keyError (key : String)
  | typeError (msg : String)
  | ioError (msg : String)
  deriving DecidableEq, Repr

deriving instance DecidableEq for Except

/-- Scanned text bodies (Python `str` contents) are lists of characters. -/
abbrev Str := List Char

/-- Python truthiness of an optional string: `None` and `''` are falsy. -/
def optStrTruthy : Option String → Bool
  | some s => !s.isEmpty
  | none => false

/-- Python truthiness of an optional list of glob patterns. -/
def optListTruthy : Option (List String) → Bool
  | some l => !l.isEmpty
  | none => false

/-- Python truthiness of an optional text body. -/
def optDataTruthy : Option Str → Bool
  | some d => !d.isEmpty
  | none => false

/-! ## Breaking-change data model

`BreakingChangeItem` is the record class of
`azdev/operations/breaking_change/__init__.py` (lines 22-27). -/

structure BreakingChangeItem where
  module : String
  command : String
  detail : String
  target_version : Option String
  deriving DecidableEq, Repr

/-- Warnings logged by `_filter_breaking_changes` (lines 260-261 and 271). -/
inductive FilterWarning
  | invalidMaxVersion (v : String)
  | invalidItemVersion (command : String) (v : String)
  deriving DecidableEq, Repr

/-- The per-item loop of `_filter_breaking_changes` (lines 264-271), given a
successfully parsed ceiling `pm`.  `parse` models `packaging.version.parse`
(`none` = `InvalidVersion` raised) and `vle` the library's `<=` on parsed
versions; both are external to the repository.  Kept items and warnings are
produced in input order. -/
def filterItemsLoop {Ver : Type} (parse : String → Option Ver) (vle : Ver → Ver → Bool)
    (pm : Ver) : List BreakingChangeItem → List BreakingChangeItem × List FilterWarning
  | [] => ([], [])
  | it :: rest =>
    let (r, w) := filterItemsLoop parse vle pm rest
    match it.target_version with
    | some tv =>
      if tv.isEmpty then (r, w)
      else
        match parse tv with
        | some v => if vle v pm then (it :: r, w) else (r, w)
        | none => (r, FilterWarning.invalidItemVersion it.command tv :: w)
    | none => (r, w)

/-- Embedding of `_filter_breaking_changes` (lines 253-271).  `if not
max_version` passes everything through; an unparseable ceiling warns and
passes everything through; otherwise the item loop filters. -/
def _filter_breaking_changes {Ver : Type} (parse : String → Option Ver)
    (vle : Ver → Ver → Bool) (items : List BreakingChangeItem)
    (max_version : Option String) : List BreakingChangeItem × List FilterWarning :=
  if ¬ optStrTruthy max_version then (items, [])
  else
    match parse (max_version.getD "") with
    | none => (items, [FilterWarning.invalidMaxVersion (max_version.getD "")])
    | some pm => filterItemsLoop parse vle pm items

/-- The retain predicate stated by the spec: target version present (truthy),
parseable, and at most the ceiling. -/
def specRetains {Ver : Type} (parse : String → Option Ver) (vle : Ver → Ver → Bool)
    (pm : Ver) (it : BreakingChangeItem) : Bool :=
  match it.target_version with
  | some tv => !tv.isEmpty && ((parse tv).elim false (fun v => vle v pm))
  | none => false

/-- The warning stated by the spec for one item: present but unparseable
target versions warn, absent ones are dropped silently. -/
def specWarning {Ver : Type} (parse : String → Option Ver)
    (it : BreakingChangeItem) : Option FilterWarning :=
  match it.target_version with
  | some tv =>
    if tv.isEmpty then none
    else
      match parse tv with
      | some _ => none
      | none => some (FilterWarning.invalidItemVersion it.command tv)
  | none => none

theorem filterItemsLoop_spec {Ver : Type} (parse : String → Option Ver)
    (vle : Ver → Ver → Bool) (pm : Ver) (items : List BreakingChangeItem) :
    filterItemsLoop parse vle pm items =
      (items.filter (specRetains parse vle pm), items.filterMap (specWarning parse)) := by
  induction items with
  | nil => rfl
  | cons it rest ih =>
    obtain ⟨m, c, d, tv⟩ := it
    cases tv with
    | none =>
      simp [filterItemsLoop, ih, List.filter_cons, List.filterMap_cons,
        specRetains, specWarning]
    | some tv =>
      by_cases he : tv.isEmpty
      · simp [filterItemsLoop, ih, List.filter_cons, List.filterMap_cons,
          specRetains, specWarning, he]
      · cases hp : parse tv with
        | none =>
          simp [filterItemsLoop, ih, List.filter_cons, List.filterMap_cons,
            specRetains, specWarning, he, hp]
        | some v =>
          by_cases hv : vle v pm
          · simp [filterItemsLoop, ih, List.filter_cons, List.filterMap_cons,
              specRetains, specWarning, he, hp, hv]
          · simp [filterItemsLoop, ih, List.filter_cons, List.filterMap_cons,
              specRetains, specWarning, he, hp, hv]

/-- C1: for every sequence of records, a falsy (absent/None/empty) maxVersion
passes the sequence through unchanged; a non-empty maxVersion that does not
parse passes it through unchanged with a warning; otherwise exactly the
records whose target_version is present (truthy), parses, and is at most the
ceiling are retained, records with present-but-unparseable target_version are
dropped with a warning, and records with no target_version are dropped
silently (no warning). -/
theorem c1_filter_breaking_changes {Ver : Type} (parse : String → Option Ver)
    (vle : Ver → Ver → Bool) (items : List BreakingChangeItem)
    (max_version : Option String) :
    (optStrTruthy max_version = false →
      _filter_breaking_changes parse vle items max_version = (items, [])) ∧
    (∀ mv, max_version = some mv → mv ≠ "" → parse mv = none →
      _filter_breaking_changes parse vle items max_version =
        (items, [FilterWarning.invalidMaxVersion mv])) ∧
    (∀ mv pm, max_version = some mv → mv ≠ "" → parse mv = some pm →
      _filter_breaking_changes parse vle items max_version =
        (items.filter (specRetains parse vle pm), items.filterMap (specWarning parse))) := by
  refine ⟨?_, ?_, ?_⟩
  · intro h
    simp [_filter_breaking_changes, h]
  · intro mv hmv hne hp
    subst hmv
    have hemp : mv.isEmpty = false := by
      cases h : mv.isEmpty
      · rfl
      · exact absurd ((String.isEmpty_iff mv).mp h) hne
    simp [_filter_breaking_changes, optStrTruthy, hemp, hp]
  · intro mv pm hmv hne hp
    subst hmv
    have hemp : mv.isEmpty = false := by
      cases h : mv.isEmpty
      · rfl
      · exact absurd ((String.isEmpty_iff mv).mp h) hne
    simp [_filter_breaking_changes, optStrTruthy, hemp, hp, filterItemsLoop_spec]

theorem c1_filter_breaking_changes_witness :
    _filter_breaking_changes (fun s => if s = "2.0.0" then some 2 else none)
        (fun a b => decide (a ≤ b))
        [⟨"m", "c", "d", some "x"⟩, ⟨"m", "c2", "d2", some "2.0.0"⟩,
         ⟨"m", "c3", "d3", none⟩]
        (some "2.0.0") =
      ([⟨"m", "c2", "d2", some "2.0.0"⟩],
       [FilterWarning.invalidItemVersion "c" "x"]) := by
  have h := (@c1_filter_breaking_changes Nat
    (fun s => if s = "2.0.0" then some 2 else none) (fun a b => decide (a ≤ b))
    [⟨"m", "c", "d", some "x"⟩, ⟨"m", "c2", "d2", some "2.0.0"⟩,
     ⟨"m", "c3", "d3", none⟩] (some "2.0.0")).2.2 "2.0.0" 2 rfl (by decide) (by decide)
  rw [h]
  decide

/-! ## Breaking-change walker

Embedding of the deprecation walk of `_handle_command_breaking_changes` and
its helpers (lines 82-161 of `breaking_change/__init__.py`). -/

/-- Model of a knack `Deprecated` status tag / deprecated-option marker.
`hasTargetAttr` models Python `hasattr(tag, 'target')`; when it is `false`
the `target` field is meaningless (the attribute is absent on the object). -/
structure Deprecated where
  hasTargetAttr : Bool := true
  target : Option String := none
  redirect : Option String := none
  expiration : Option String := none
  hide : Bool := false
  deriving DecidableEq, Repr

/-- Greedy match of the regex `\d+\.\d+\.\d+` anchored at the head of `l`,
returning group 0.  The character classes `\d` and `\.` are disjoint, so the
greedy maximal-run match needs no backtracking. -/
def matchVer3 (l : List Char) : Option (List Char) :=
  let p1 := l.span Char.isDigit
  if p1.1.isEmpty then none
  else
    match p1.2 with
    | '.' :: r2 =>
      let p2 := r2.span Char.isDigit
      if p2.1.isEmpty then none
      else
        match p2.2 with
        | '.' :: r4 =>
          let p3 := r4.span Char.isDigit
          if p3.1.isEmpty then none
          else some (p1.1 ++ '.' :: (p2.1 ++ '.' :: p3.1))
        | _ => none
    | _ => none

/-- Leftmost occurrence: `re.search(r'\d+\.\d+\.\d+', detail)` in
`_handle_status_tag` (line 100). -/
def searchVersionAux : List Char → Option (List Char)
  | [] => none
  | c :: rest =>
    match matchVer3 (c :: rest) with
    | some m => some m
    | none => searchVersionAux rest

def searchVersion (s : String) : Option String :=
  (searchVersionAux s.data).map List.asString

/-- Embedding of `_handle_status_tag` (lines 82-103) for a (non-merged)
`Deprecated` tag: the detail is the tag's rendered message (`msgOf` models
`status_tag._get_message`, an external knack collaborator), the version is
the tag's expiration, falling back to a `\d+\.\d+\.\d+` regex search inside
the message when the expiration is Python `None`. -/
def _handle_status_tag (msgOf : Deprecated → String) (module command : String)
    (d : Deprecated) : List BreakingChangeItem :=
  let detail := msgOf d
  let version : Option String :=
    match d.expiration with
    | some v => some v
    | none => searchVersion detail
  [⟨module, command, detail, version⟩]

/-- An entry of an argument's `option_list` / `options_list`: a plain option
string, a `Deprecated` marker, or any other object (skipped by the code). -/
inductive OptionItem
  | str (s : String)
  | depr (d : Deprecated)
  | other
  deriving DecidableEq, Repr

/-- The settings dict of one argument (`argument.type.settings`), restricted
to the keys the walker reads.  `option_list` (line 115) and `options_list`
(line 159) are distinct keys in the source. -/
structure ArgSettings where
  deprecate_info : Option Deprecated := none
  option_list : List OptionItem := []
  options_list : List OptionItem := []
  deriving DecidableEq, Repr

/-- One argument of a command; the `argument.type` indirection is flattened. -/
structure Argument where
  settings : ArgSettings
  deriving DecidableEq, Repr

/-- One entry of the command table: optional command-level deprecation tag
plus the named arguments, in iteration order. -/
structure CommandInfo where
  deprecate_info : Option Deprecated := none
  arguments : List (String × Argument) := []
  deriving DecidableEq, Repr

/-- One entry of the command-group table: `group_kwargs.get('deprecate_info')`. -/
structure GroupInfo where
  deprecate_info : Option Deprecated := none
  deriving DecidableEq, Repr

/-- Python `'/'.join(entries)` where the collected entries may be `None`
(then `str.join` raises `TypeError`). -/
def pyJoinSlash (l : List (Option String)) : Except PyErr String :=
  if l.all (·.isSome) then .ok (String.intercalate "/" (l.filterMap id))
  else .error (.typeError "sequence item: expected str instance, NoneType found")

/-- The entries appended by the loop of `_calc_target_of_arg_deprecation`
(lines 115-119): plain strings as themselves, `Deprecated` options via their
`target` attribute (which may be `None`), other objects skipped. -/
def optionTargetEntries : List OptionItem → List (Option String)
  | [] => []
  | OptionItem.str s :: rest => some s :: optionTargetEntries rest
  | OptionItem.depr d :: rest => d.target :: optionTargetEntries rest
  | OptionItem.other :: rest => optionTargetEntries rest

/-- Embedding of `_calc_target_of_arg_deprecation` (lines 110-125). -/
def _calc_target_of_arg_deprecation (arg_name : String) (s : ArgSettings) :
    Except PyErr (Option String) :=
  let entries := optionTargetEntries s.option_list
  if ¬ entries.isEmpty then (pyJoinSlash entries).map some
  else
    match s.deprecate_info with
    | some d => if d.hasTargetAttr then .ok d.target else .ok (some arg_name)
    | none => .ok (some arg_name)

/-- Python `setattr`-style overwrite `tag.target = t` (after which the
attribute certainly exists). -/
def setTagTarget (d : Deprecated) (t : Option String) : Deprecated :=
  { d with hasTargetAttr := true, target := t }

/-- Replace the deprecation tag stored in an argument's settings. -/
def setSettingsTag (s : ArgSettings) (d : Deprecated) : ArgSettings :=
  { s with deprecate_info := some d }

/-- Embedding of `_handle_arg_deprecation` (lines 128-130): the tag's
`target` attribute is OVERWRITTEN with the computed target before the tag is
rendered. -/
def _handle_arg_deprecation (msgOf : Deprecated → String) (module command : String)
    (target : Option String) (d : Deprecated) : Deprecated × List BreakingChangeItem :=
  let d' : Deprecated := setTagTarget d target
  (d', _handle_status_tag msgOf module command d')

/-- The `if depr:` body of the argument loop (lines 155-158), returning the
argument settings as they stand after the walk (the mutated tag included). -/
def argDeprPart (msgOf : Deprecated → String) (module command arg_name : String)
    (s : ArgSettings) : Except PyErr (ArgSettings × List BreakingChangeItem) :=
  match s.deprecate_info with
  | none => .ok (s, [])
  | some d =>
    match _calc_target_of_arg_deprecation arg_name s with
    | .error e => .error e
    | .ok bc_target =>
      let r := _handle_arg_deprecation msgOf module command bc_target d
      .ok (setSettingsTag s r.1, r.2)

/-- The grouping key `f'{option.redirect}|{option.expiration}|{option.hide}'`
of `_handle_options_deprecation` (line 139); Python renders `None` as
`'None'` and booleans as `'True'`/`'False'`. -/
def optKey (d : Deprecated) : String :=
  (d.redirect.getD "None") ++ "|" ++ (d.expiration.getD "None") ++ "|" ++
    (if d.hide then "True" else "False")

/-- Append index `i` to the bucket of key `k`, preserving first-insertion
order (Python `defaultdict` iteration order). -/
def addToGroups (gs : List (String × List Nat)) (k : String) (i : Nat) :
    List (String × List Nat) :=
  match gs with
  | [] => [(k, [i])]
  | (k', is') :: rest =>
    if k' = k then (k', is' ++ [i]) :: rest else (k', is') :: addToGroups rest k i

/-- The `deprecate_option_map` of lines 136-140, holding the positions of the
`Deprecated` entries of the options list, grouped by `optKey`. -/
def buildDeprGroups (options : List OptionItem) : List (String × List Nat) :=
  options.enum.foldl
    (fun gs p =>
      match p.2 with
      | OptionItem.depr d => addToGroups gs (optKey d) p.1
      | _ => gs) []

def getDeprAt (options : List OptionItem) (i : Nat) : Option Deprecated :=
  match options.get? i with
  | some (OptionItem.depr d) => some d
  | _ => none

/-- One iteration of the loop at lines 141-145: join the group's targets,
overwrite the FIRST tag of the group with the joined target (in-place
mutation of the options list), and render that tag. -/
def optionsGroupStep (msgOf : Deprecated → String) (module command : String)
    (st : List OptionItem × List BreakingChangeItem) (g : String × List Nat) :
    Except PyErr (List OptionItem × List BreakingChangeItem) :=
  match g.2 with
  | [] => .ok st
  | i0 :: _ =>
    match pyJoinSlash (g.2.map (fun i => (getDeprAt st.1 i).bind (·.target))) with
    | .error e => .error e
    | .ok joined =>
      match getDeprAt st.1 i0 with
      | some d =>
        .ok (st.1.set i0 (OptionItem.depr (setTagTarget d (some joined))),
             st.2 ++ _handle_status_tag msgOf module command (setTagTarget d (some joined)))
      | none => .ok st

/-- Embedding of `_handle_options_deprecation` (lines 133-145). -/
def _handle_options_deprecation (msgOf : Deprecated → String) (module command : String)
    (options : List OptionItem) : Except PyErr (List OptionItem × List BreakingChangeItem) :=
  (buildDeprGroups options).foldlM (optionsGroupStep msgOf module command) (options, [])

/-- One iteration of the argument loop of `_handle_command_breaking_changes`
(lines 153-159): argument-deprecation handling followed by options-list
deprecation handling, returning the argument as it stands afterwards. -/
def processCommandArg (msgOf : Deprecated → String) (module command : String)
    (p : String × Argument) : Except PyErr (Argument × List BreakingChangeItem) :=
  match argDeprPart msgOf module command p.1 p.2.settings with
  | .error e => .error e
  | .ok (s1, items1) =>
    match _handle_options_deprecation msgOf module command s1.options_list with
    | .error e => .error e
    | .ok (opts', items2) =>
      .ok (⟨{ s1 with options_list := opts' }⟩, items1 ++ items2)

/-- One step of the argument loop at line 153, appending the walked argument
and the records it produced. -/
def commandArgStep (msgOf : Deprecated → String) (module command : String)
    (st : List (String × Argument) × List BreakingChangeItem) (p : String × Argument) :
    Except PyErr (List (String × Argument) × List BreakingChangeItem) :=
  match processCommandArg msgOf module command p with
  | .error e => .error e
  | .ok (a', its) => .ok (st.1 ++ [(p.1, a')], st.2 ++ its)

/-- The command-level deprecation records of lines 150-151. -/
def commandLevelItems (msgOf : Deprecated → String) (module command : String)
    (ci : CommandInfo) : List BreakingChangeItem :=
  match ci.deprecate_info with
  | some d => _handle_status_tag msgOf module command d
  | none => []

/-- The `source == "deprecate_info"` body of
`_handle_command_breaking_changes` (lines 149-159). -/
def handleCommandDeprSource (msgOf : Deprecated → String) (module command : String)
    (ci : CommandInfo) : Except PyErr (CommandInfo × List BreakingChangeItem) :=
  match ci.arguments.foldlM (commandArgStep msgOf module command)
      ([], commandLevelItems msgOf module command ci) with
  | .error e => .error e
  | .ok r => .ok ({ ci with arguments := r.1 }, r.2)

/-- Embedding of `_handle_command_breaking_changes` (lines 148-161).
`customBC` models `_handle_custom_breaking_changes`, which only reads the
external `upcoming_breaking_changes` registry and never the command table. -/
def _handle_command_breaking_changes (msgOf : Deprecated → String)
    (customBC : String → String → List BreakingChangeItem)
    (module command : String) (ci : CommandInfo) (source : String) :
    Except PyErr (CommandInfo × List BreakingChangeItem) :=
  match (if source = "deprecate_info" then handleCommandDeprSource msgOf module command ci
         else .ok (ci, [])) with
  | .error e => .error e
  | .ok r =>
    .ok (r.1, r.2 ++ (if source = "pre_announce" then customBC module command else []))

/-- Embedding of `_handle_command_group_breaking_changes` (lines 168-175);
a pure reader of the group table. -/
def _handle_command_group_breaking_changes (msgOf : Deprecated → String)
    (customBC : String → String → List BreakingChangeItem)
    (module group_name : String) (g : GroupInfo) (source : String) :
    List BreakingChangeItem :=
  (if source = "deprecate_info" then
    match g.deprecate_info with
    | some d => _handle_status_tag msgOf module group_name d
    | none => []
   else []) ++
  (if source = "pre_announce" then customBC module group_name else [])

/-- One step of the command loop at line 215, appending the walked command
and the records it produced. -/
def moduleCommandStep (msgOf : Deprecated → String)
    (customBC : String → String → List BreakingChangeItem) (module source : String)
    (st : List (String × CommandInfo) × List BreakingChangeItem)
    (p : String × CommandInfo) :
    Except PyErr (List (String × CommandInfo) × List BreakingChangeItem) :=
  match _handle_command_breaking_changes msgOf customBC module p.1 p.2 source with
  | .error e => .error e
  | .ok (ci', its) => .ok (st.1 ++ [(p.1, ci')], st.2 ++ its)

/-- Embedding of `_handle_module` (lines 212-219): walk the command table,
then the command-group table, returning both tables as they stand after the
walk together with the emitted records. -/
def _handle_module (msgOf : Deprecated → String)
    (customBC : String → String → List BreakingChangeItem) (module : String)
    (command_table : List (String × CommandInfo))
    (command_group_table : List (String × GroupInfo)) (source : String) :
    Except PyErr
      (List (String × CommandInfo) × List (String × GroupInfo) × List BreakingChangeItem) :=
  match command_table.foldlM (moduleCommandStep msgOf customBC module source) ([], []) with
  | .error e => .error e
  | .ok r =>
    let items2 := command_group_table.foldl
      (fun acc p =>
        acc ++ _handle_command_group_breaking_changes msgOf customBC module p.1 p.2 source) []
    .ok (r.1, command_group_table, r.2 ++ items2)

/-! ## C5: the target of an argument-deprecation record -/

/-- What one options-list entry contributes to the joined target in the
source (line 117 / line 119): itself for strings, the `target` attribute for
deprecated options. -/
def optTargetOf : OptionItem → Option String
  | OptionItem.str st => some st
  | OptionItem.depr d => d.target
  | OptionItem.other => none

/-- What one options-list entry contributes according to the claim's words:
itself for strings, the REDIRECT target for deprecated options. -/
def optRedirectOf : OptionItem → Option String
  | OptionItem.str st => some st
  | OptionItem.depr d => d.redirect
  | OptionItem.other => none

/-- The target chain exactly as claim C5 states it: '/'-joined option
strings with deprecated options contributing their redirect target, falling
back to the deprecation tag's own declared target, falling back to the
argument's internal name. -/
def claimedArgDeprTarget (arg_name : String) (s : ArgSettings) : Option String :=
  let opts := s.option_list.filterMap optRedirectOf
  if ¬ opts.isEmpty then some (String.intercalate "/" opts)
  else
    match s.deprecate_info with
    | some d => if d.hasTargetAttr then d.target else some arg_name
    | none => some arg_name

/-- The amended target chain: '/'-joined option strings with deprecated
options contributing their own deprecation target (the deprecated option
string itself, not the redirect), falling back to the tag's declared target,
falling back to the argument's internal name. -/
def amendedArgDeprTarget (arg_name : String) (s : ArgSettings) : Option String :=
  let opts := s.option_list.filterMap optTargetOf
  if ¬ opts.isEmpty then some (String.intercalate "/" opts)
  else
    match s.deprecate_info with
    | some d => if d.hasTargetAttr then d.target else some arg_name
    | none => some arg_name

theorem optionTargetEntries_wf (l : List OptionItem)
    (hwf : ∀ d, OptionItem.depr d ∈ l → d.target.isSome = true) :
    (optionTargetEntries l).all (·.isSome) = true ∧
    (optionTargetEntries l).filterMap id = l.filterMap optTargetOf ∧
    (optionTargetEntries l).isEmpty = (l.filterMap optTargetOf).isEmpty := by
  induction l with
  | nil => exact ⟨rfl, rfl, rfl⟩
  | cons o rest ih =>
    have hrest := ih (fun d hd => hwf d (List.mem_cons_of_mem _ hd))
    cases o with
    | str st =>
      simp [optionTargetEntries, optTargetOf, List.filterMap_cons, hrest.1, hrest.2.1]
    | depr d =>
      have hs : d.target.isSome = true := hwf d (List.mem_cons_self _ _)
      obtain ⟨t, ht⟩ := Option.isSome_iff_exists.mp hs
      simp [optionTargetEntries, optTargetOf, List.filterMap_cons, ht, hrest.1, hrest.2.1]
    | other =>
      simpa [optionTargetEntries, optTargetOf, List.filterMap_cons] using hrest

/-- C5 (amended): for every argument whose settings carry a deprecation tag,
and whose deprecated options all have a present target attribute, the
computed breaking-change target equals the amended chain — '/'-joined option
strings (a deprecated option contributing its own deprecation target, not
its redirect), falling back to the tag's declared target, falling back to
the argument's internal name — and the emitted record is the rendering of
the tag with exactly that target written into it. -/
theorem c5_arg_deprecation_target (msgOf : Deprecated → String)
    (module command arg_name : String) (s : ArgSettings) (d : Deprecated)
    (hd : s.deprecate_info = some d)
    (hwf : ∀ d', OptionItem.depr d' ∈ s.option_list → d'.target.isSome = true) :
    _calc_target_of_arg_deprecation arg_name s =
      .ok (amendedArgDeprTarget arg_name s) ∧
    argDeprPart msgOf module command arg_name s =
      .ok (setSettingsTag s (setTagTarget d (amendedArgDeprTarget arg_name s)),
           _handle_status_tag msgOf module command
             (setTagTarget d (amendedArgDeprTarget arg_name s))) := by
  obtain ⟨hall, hfm, hemp⟩ := optionTargetEntries_wf s.option_list hwf
  have hcalc : _calc_target_of_arg_deprecation arg_name s =
      .ok (amendedArgDeprTarget arg_name s) := by
    unfold _calc_target_of_arg_deprecation amendedArgDeprTarget
    by_cases h : (optionTargetEntries s.option_list).isEmpty
    · have h2 : (s.option_list.filterMap optTargetOf).isEmpty = true := by
        rw [← hemp]; exact h
      simp [h, h2, hd]
      split <;> rfl
    · have h2 : (s.option_list.filterMap optTargetOf).isEmpty = false := by
        rw [← hemp]; simpa using h
      simp [h, h2, pyJoinSlash, hall, hfm, Except.map]
  refine ⟨hcalc, ?_⟩
  unfold argDeprPart
  rw [hd, hcalc]
  rfl

def msg0 : Deprecated → String := fun d => d.target.getD "NoTarget"

def c5demoTag : Deprecated :=
  { hasTargetAttr := true, target := none, redirect := none,
    expiration := some "2.0.0", hide := false }

def c5demoOption : Deprecated :=
  { hasTargetAttr := true, target := some "--old", redirect := some "--new",
    expiration := none, hide := false }

def c5demoSettings : ArgSettings :=
  { deprecate_info := some c5demoTag,
    option_list := [OptionItem.depr c5demoOption],
    options_list := [] }

def c5demoSettingsAfter : ArgSettings :=
  { deprecate_info := some (setTagTarget c5demoTag (some "--old")),
    option_list := [OptionItem.depr c5demoOption],
    options_list := [] }

theorem c5_arg_deprecation_target_witness :
    c5demoSettings.deprecate_info = some c5demoTag ∧
    _calc_target_of_arg_deprecation "param" c5demoSettings =
      .ok (amendedArgDeprTarget "param" c5demoSettings) := by
  refine ⟨rfl, ?_⟩
  exact (c5_arg_deprecation_target msg0 "m" "c" "param" c5demoSettings c5demoTag rfl
    (by intro d' hd'; simp [c5demoSettings] at hd'; subst hd'; rfl)).1

/-- C5 counterexample: an argument with one declared option, deprecated with
target `--old` and redirect `--new`.  The code computes and emits target
`--old` (the option's own deprecation target); the chain stated by the claim
(redirect target) yields `--new`. -/
theorem c5_counterexample :
    argDeprPart msg0 "m" "c" "param" c5demoSettings =
      .ok (c5demoSettingsAfter, [⟨"m", "c", "--old", some "2.0.0"⟩]) ∧
    claimedArgDeprTarget "param" c5demoSettings = some "--new" ∧
    ("--old" : String) ≠ "--new" := by
  refine ⟨by decide, by decide, by decide⟩

/-! ## C6: what the walker leaves untouched and what it mutates -/

/-- Normalize a deprecation tag by erasing the one attribute the walker
overwrites (`target`, together with its presence flag). -/
def scrubDeprecated (d : Deprecated) : Deprecated :=
  { d with hasTargetAttr := false, target := none }

def scrubOptionItem : OptionItem → OptionItem
  | OptionItem.depr d => OptionItem.depr (scrubDeprecated d)
  | o => o

def scrubSettings (s : ArgSettings) : ArgSettings :=
  { deprecate_info := s.deprecate_info.map scrubDeprecated,
    option_list := s.option_list.map scrubOptionItem,
    options_list := s.options_list.map scrubOptionItem }

def scrubArgument (a : Argument) : Argument := ⟨scrubSettings a.settings⟩

def scrubCommandInfo (ci : CommandInfo) : CommandInfo :=
  { deprecate_info := ci.deprecate_info.map scrubDeprecated,
    arguments := ci.arguments.map (fun p => (p.1, scrubArgument p.2)) }

def scrubArgTable (l : List (String × Argument)) : List (String × Argument) :=
  l.map (fun p => (p.1, scrubArgument p.2))

def scrubCommandTable (ct : List (String × CommandInfo)) : List (String × CommandInfo) :=
  ct.map (fun p => (p.1, scrubCommandInfo p.2))

theorem list_set_of_get? {α : Type} (l : List α) (i : Nat) (a : α)
    (h : l.get? i = some a) : l.set i a = l := by
  induction l generalizing i with
  | nil => simp at h
  | cons x xs ih =>
    cases i with
    | zero =>
      simp only [List.get?] at h
      injection h with h
      simp [h]
    | succ n =>
      simp only [List.get?] at h
      simp [List.set, ih n h]

theorem getDeprAt_eq_some {l : List OptionItem} {i : Nat} {d : Deprecated}
    (h : getDeprAt l i = some d) : l.get? i = some (OptionItem.depr d) := by
  unfold getDeprAt at h
  split at h
  · next d' heq =>
    injection h with h
    rw [← h]
    exact heq
  · cases h

theorem optionsGroupStep_scrub (msgOf : Deprecated → String) (module command : String)
    (st : List OptionItem × List BreakingChangeItem) (g : String × List Nat)
    (res : List OptionItem × List BreakingChangeItem)
    (h : optionsGroupStep msgOf module command st g = .ok res) :
    res.1.map scrubOptionItem = st.1.map scrubOptionItem := by
  unfold optionsGroupStep at h
  split at h
  · injection h with h
    rw [← h]
  · split at h
    · cases h
    · next joined hj =>
      split at h
      · next d hd =>
        injection h with h
        rw [← h]
        have hget := getDeprAt_eq_some hd
        rw [List.map_set]
        have hsc : scrubOptionItem (OptionItem.depr (setTagTarget d (some joined))) =
            scrubOptionItem (OptionItem.depr d) := rfl
        rw [hsc]
        exact list_set_of_get? _ _ _ (by rw [List.get?_map, hget]; rfl)
      · injection h with h
        rw [← h]

theorem optionsFold_scrub (msgOf : Deprecated → String) (module command : String)
    (gs : List (String × List Nat)) (st res : List OptionItem × List BreakingChangeItem)
    (h : gs.foldlM (optionsGroupStep msgOf module command) st = .ok res) :
    res.1.map scrubOptionItem = st.1.map scrubOptionItem := by
  induction gs generalizing st with
  | nil =>
    simp only [List.foldlM] at h
    injection h with h
    rw [← h]
  | cons g gs ih =>
    rw [List.foldlM_cons] at h
    cases hs : optionsGroupStep msgOf module command st g with
    | error e => rw [hs] at h; simp [Bind.bind, Except.bind] at h
    | ok st1 =>
      rw [hs] at h
      simp only [Bind.bind, Except.bind] at h
      exact (ih st1 h).trans (optionsGroupStep_scrub msgOf module command st g st1 hs)

theorem handle_options_deprecation_scrub (msgOf : Deprecated → String)
    (module command : String) (options : List OptionItem)
    (res : List OptionItem × List BreakingChangeItem)
    (h : _handle_options_deprecation msgOf module command options = .ok res) :
    res.1.map scrubOptionItem = options.map scrubOptionItem :=
  optionsFold_scrub msgOf module command (buildDeprGroups options) (options, []) res h

theorem argDeprPart_scrub (msgOf : Deprecated → String)
    (module command arg_name : String) (s : ArgSettings)
    (res : ArgSettings × List BreakingChangeItem)
    (h : argDeprPart msgOf module command arg_name s = .ok res) :
    scrubSettings res.1 = scrubSettings s := by
  unfold argDeprPart at h
  split at h
  · injection h with h
    rw [← h]
  · next d hd =>
    split at h
    · cases h
    · injection h with h
      rw [← h]
      simp [setSettingsTag, setTagTarget, _handle_arg_deprecation, scrubSettings,
        scrubDeprecated, hd]

theorem processCommandArg_scrub (msgOf : Deprecated → String) (module command : String)
    (p : String × Argument) (res : Argument × List BreakingChangeItem)
    (h : processCommandArg msgOf module command p = .ok res) :
    scrubArgument res.1 = scrubArgument p.2 := by
  unfold processCommandArg at h
  split at h
  · cases h
  · next s1 items1 h1 =>
    split at h
    · cases h
    · next opts' items2 h2 =>
      injection h with h
      rw [← h]
      have e1 := argDeprPart_scrub msgOf module command p.1 p.2.settings (s1, items1) h1
      have e2 := handle_options_deprecation_scrub msgOf module command s1.options_list
        (opts', items2) h2
      simp only [scrubArgument, Argument.mk.injEq]
      calc scrubSettings { s1 with options_list := opts' }
      _ = scrubSettings s1 := by simp [scrubSettings, e2]
      _ = scrubSettings p.2.settings := e1

theorem argsFold_scrub (msgOf : Deprecated → String) (module command : String)
    (args : List (String × Argument))
    (st res : List (String × Argument) × List BreakingChangeItem)
    (h : args.foldlM (commandArgStep msgOf module command) st = .ok res) :
    scrubArgTable res.1 = scrubArgTable st.1 ++ scrubArgTable args := by
  induction args generalizing st with
  | nil =>
    simp only [List.foldlM] at h
    injection h with h
    rw [← h]
    simp [scrubArgTable]
  | cons p args ih =>
    rw [List.foldlM_cons] at h
    cases hs : commandArgStep msgOf module command st p with
    | error e => rw [hs] at h; simp [Bind.bind, Except.bind] at h
    | ok st1 =>
      rw [hs] at h
      simp only [Bind.bind, Except.bind] at h
      unfold commandArgStep at hs
      split at hs
      · cases hs
      · next a' its hp =>
        injection hs with hs
        rw [← hs] at h
        have := ih _ h
        rw [this]
        have ha := processCommandArg_scrub msgOf module command p (a', its) hp
        simp [scrubArgTable, ha]

theorem handle_command_scrub (msgOf : Deprecated → String)
    (customBC : String → String → List BreakingChangeItem)
    (module command : String) (ci : CommandInfo) (source : String)
    (res : CommandInfo × List BreakingChangeItem)
    (h : _handle_command_breaking_changes msgOf customBC module command ci source = .ok res) :
    scrubCommandInfo res.1 = scrubCommandInfo ci := by
  unfold _handle_command_breaking_changes at h
  by_cases hsrc : source = "deprecate_info"
  · rw [if_pos hsrc] at h
    cases hd : handleCommandDeprSource msgOf module command ci with
    | error e => rw [hd] at h; cases h
    | ok r =>
      rw [hd] at h
      injection h with h
      rw [← h]
      have hr : scrubCommandInfo r.1 = scrubCommandInfo ci := by
        unfold handleCommandDeprSource at hd
        cases hfold : ci.arguments.foldlM (commandArgStep msgOf module command)
            ([], commandLevelItems msgOf module command ci) with
        | error e => rw [hfold] at hd; cases hd
        | ok r0 =>
          rw [hfold] at hd
          injection hd with hd
          rw [← hd]
          have := argsFold_scrub msgOf module command ci.arguments
            ([], commandLevelItems msgOf module command ci) r0 hfold
          simp only [scrubArgTable, List.map_nil, List.nil_append] at this
          simp [scrubCommandInfo, this]
      exact hr
  · rw [if_neg hsrc] at h
    injection h with h
    rw [← h]

theorem commandsFold_scrub (msgOf : Deprecated → String)
    (customBC : String → String → List BreakingChangeItem) (module source : String)
    (cmds : List (String × CommandInfo))
    (st res : List (String × CommandInfo) × List BreakingChangeItem)
    (h : cmds.foldlM (moduleCommandStep msgOf customBC module source) st = .ok res) :
    scrubCommandTable res.1 = scrubCommandTable st.1 ++ scrubCommandTable cmds := by
  induction cmds generalizing st with
  | nil =>
    simp only [List.foldlM] at h
    injection h with h
    rw [← h]
    simp [scrubCommandTable]
  | cons p cmds ih =>
    rw [List.foldlM_cons] at h
    cases hs : moduleCommandStep msgOf customBC module source st p with
    | error e => rw [hs] at h; simp [Bind.bind, Except.bind] at h
    | ok st1 =>
      rw [hs] at h
      simp only [Bind.bind, Except.bind] at h
      unfold moduleCommandStep at hs
      split at hs
      · cases hs
      · next ci' its hp =>
        injection hs with hs
        rw [← hs] at h
        rw [ih _ h]
        have ha := handle_command_scrub msgOf customBC module p.1 p.2 source (ci', its) hp
        simp [scrubCommandTable, ha]

/-- C6 (amended): the breaking-change walker preserves the shape of the
tables it traverses — no command, argument, option entry or group is added,
removed or renamed, and the command-group table is returned entirely
unchanged — but it DOES mutate deprecation tags in place: up to the `target`
attribute of deprecation tags (which `_handle_arg_deprecation` overwrites
with the computed argument target and `_handle_options_deprecation`
overwrites on the first deprecated option of each group), the walked command
table equals the input table. -/
theorem c6_walker_frame (msgOf : Deprecated → String)
    (customBC : String → String → List BreakingChangeItem) (module : String)
    (ct : List (String × CommandInfo)) (gt : List (String × GroupInfo)) (source : String)
    (ct' : List (String × CommandInfo)) (gt' : List (String × GroupInfo))
    (items : List BreakingChangeItem)
    (h : _handle_module msgOf customBC module ct gt source = .ok (ct', gt', items)) :
    scrubCommandTable ct' = scrubCommandTable ct ∧ gt' = gt := by
  unfold _handle_module at h
  split at h
  · cases h
  · next r hfold =>
    injection h with h
    have h1 := congrArg Prod.fst h
    have h2 := congrArg (fun x => x.2.1) h
    simp only [] at h1 h2
    refine ⟨?_, h2.symm⟩
    rw [← h1]
    have := commandsFold_scrub msgOf customBC module source ct ([], []) r hfold
    simpa [scrubCommandTable] using this

def c6demoTag : Deprecated :=
  { hasTargetAttr := true, target := none, redirect := none,
    expiration := some "3.0.0", hide := false }

def c6demoSettings : ArgSettings :=
  { deprecate_info := some c6demoTag,
    option_list := [OptionItem.str "--foo"],
    options_list := [] }

def c6demoCI : CommandInfo :=
  { deprecate_info := none, arguments := [("p", ⟨c6demoSettings⟩)] }

def c6demoSettingsAfter : ArgSettings :=
  { deprecate_info := some (setTagTarget c6demoTag (some "--foo")),
    option_list := [OptionItem.str "--foo"],
    options_list := [] }

def c6demoCIAfter : CommandInfo :=
  { deprecate_info := none, arguments := [("p", ⟨c6demoSettingsAfter⟩)] }

/-- C6 counterexample: walking a one-command table whose argument carries a
deprecation tag returns a CHANGED command table — the tag's `target`
attribute now holds the computed '/'-joined option string `--foo` — so the
walker does mutate the deprecation tags reachable from the table. -/
theorem c6_counterexample :
    _handle_module msg0 (fun _ _ => []) "m" [("cmd", c6demoCI)] [] "deprecate_info" =
      .ok ([("cmd", c6demoCIAfter)], [], [⟨"m", "cmd", "--foo", some "3.0.0"⟩]) ∧
    [("cmd", c6demoCIAfter)] ≠ [("cmd", c6demoCI)] := by
  exact ⟨by decide, by decide⟩

theorem c6_walker_frame_witness :
    scrubCommandTable [("cmd", c6demoCIAfter)] = scrubCommandTable [("cmd", c6demoCI)] ∧
    ([] : List (String × GroupInfo)) = [] :=
  c6_walker_frame msg0 (fun _ _ => []) "m" [("cmd", c6demoCI)] [] "deprecate_info"
    [("cmd", c6demoCIAfter)] [] [⟨"m", "cmd", "--foo", some "3.0.0"⟩] (by decide)

/-! ## Secret scan/mask engine: data model

Embedding of `azdev/operations/secret.py`. -/

/-- A compiled detection pattern; the repository code reads only its `id`
(line 120). -/
structure RegexPattern where
  id : String
  deriving DecidableEq, Repr

/-- One raw detection returned by the external
`SecretMasker.detect_secrets`. -/
structure DetectedSecret where
  name : Str
  start : Nat
  stop : Nat
  redaction_token : Str
  deriving DecidableEq, Repr

/-- One finding as recorded by `_scan_secrets_for_string` (lines 136-142). -/
structure Finding where
  secret_name : Str
  secret_value : Str
  secret_index : Nat × Nat
  redaction_token : Str
  deriving DecidableEq, Repr

/-- A mapping from scan target (absolute file path or `"raw_data"`) to its
findings, in insertion order (a Python dict). -/
abbrev ScanResults := List (String × List Finding)

/-- One entry of a custom-pattern `Include` list; `patternField` models the
JSON key `Pattern` (`none` = key absent). -/
structure IncludeEntry where
  patternField : Option String := none
  nameField : Option String := none
  deriving DecidableEq, Repr

/-- One entry of a custom-pattern `Exclude` list; `idField` models the JSON
key `Id`. -/
structure ExcludeEntry where
  idField : Option String := none
  nameField : Option String := none
  deriving DecidableEq, Repr

/-- A parsed custom-pattern document; each `Option` distinguishes an absent
`Include`/`Exclude` key from a present empty list. -/
structure CustomDoc where
  includeList : Option (List IncludeEntry) := none
  excludeList : Option (List ExcludeEntry) := none
  deriving DecidableEq, Repr

/-- The external world of `secret.py`: the file system (`os.path.isfile`,
`os.path.isdir`, `os.walk`, `os.listdir`, `os.path.abspath`, `open`/read),
`fnmatch.fnmatch`, the three bundled pattern catalogs and the pattern
constructor of `microsoft_security_utilities_secret_masker`, its
`detect_secrets`, the JSON parser applied to saved scan-result files, the
timestamped auto-generated result path, and the `prompt_y_n` answer. -/
structure Env where
  isFile : String → Bool
  isDir : String → Bool
  walk : String → List (String × List String)
  listdir : String → List String
  abspath : String → String
  readFile : String → Except PyErr Str
  fnmatch : String → String → Bool
  highPatterns : List RegexPattern
  mediumPatterns : List RegexPattern
  lowPatterns : List RegexPattern
  loadCustomPattern : IncludeEntry → RegexPattern
  detectSecrets : List RegexPattern → Str → List DetectedSecret
  parseScanResults : Str → Except PyErr ScanResults
  autoResultPath : String
  promptAnswer : Bool

/-- File-system interactions in program order: metadata checks (`stat`),
content reads and writes, directory listings, and logged warnings. -/
inductive Ev
  | statF (p : String)
  | statD (p : String)
  | readF (p : String)
  | writeF (p : String)
  | writeM (p : String) (content : Str)
  | listD (p : String)
  | warn (p : String)
  deriving DecidableEq, Repr

/-- Metadata-only events (no file content is read or written). -/
def Ev.isStat : Ev → Bool
  | .statF _ => true
  | .statD _ => true
  | _ => false

/-- Embedding of `_validate_data_path` (lines 17-36): the argument-combination
checks in source order, interleaved with the `isdir`/`isfile` existence
checks exactly where the source performs them. -/
def _validate_data_path (env : Env) (file_path directory_path : Option String)
    (include_pattern exclude_pattern : Option (List String)) (data : Option Str) :
    Except PyErr Unit × List Ev :=
  if optStrTruthy file_path && optStrTruthy directory_path then
    (.error (.valueError "Can not specify file path and directory path at the same time"), [])
  else if optStrTruthy file_path && optDataTruthy data then
    (.error (.valueError "Can not specify file path and raw string at the same time"), [])
  else if optStrTruthy directory_path && optDataTruthy data then
    (.error (.valueError "Can not specify directory path and raw string at the same time"), [])
  else if !optStrTruthy file_path && !optStrTruthy directory_path && !optDataTruthy data then
    (.error (.valueError "No file path or directory path or raw string provided"), [])
  else
    let dpEvents := if optStrTruthy directory_path then [Ev.statD (directory_path.getD "")] else []
    if optStrTruthy directory_path && !env.isDir (directory_path.getD "") then
      (.error (.valueError ("invalid directory path:" ++ directory_path.getD "")), dpEvents)
    else
      let fpEvents := if optStrTruthy file_path then [Ev.statF (file_path.getD "")] else []
      if optStrTruthy file_path && !env.isFile (file_path.getD "") then
        (.error (.valueError ("invalid file path:" ++ file_path.getD "")), dpEvents ++ fpEvents)
      else if !optStrTruthy directory_path && optListTruthy include_pattern then
        (.error (.valueError "--include-pattern need to be used together with --directory-path"),
         dpEvents ++ fpEvents)
      else if !optStrTruthy directory_path && optListTruthy exclude_pattern then
        (.error (.valueError "--exclude-pattern need to be used together with --directory-path"),
         dpEvents ++ fpEvents)
      else if optListTruthy include_pattern && optListTruthy exclude_pattern then
        (.error (.valueError "--include-pattern and --exclude-pattern are mutually exclusive"),
         dpEvents ++ fpEvents)
      else (.ok (), dpEvents ++ fpEvents)

/-- Embedding of `_is_file_name_in_patterns` (lines 39-46): Python `None`
for a falsy file name or pattern list, else whether any glob matches
(`fnmatch` is external). -/
def _is_file_name_in_patterns (env : Env) (filename : String)
    (patterns : Option (List String)) : Option Bool :=
  if filename.isEmpty || !optListTruthy patterns then none
  else if (patterns.getD []).any (fun p => env.fnmatch filename p) then some true
  else some false

/-- Embedding of `_check_file_include_and_exclude_pattern` (lines 49-55);
the `Option Bool` results are used under Python truthiness. -/
def _check_file_include_and_exclude_pattern (env : Env) (filename : String)
    (include_pattern exclude_pattern : Option (List String)) : Bool :=
  !(optListTruthy include_pattern &&
      !((_is_file_name_in_patterns env filename include_pattern).getD false)) &&
  !(optListTruthy exclude_pattern &&
      ((_is_file_name_in_patterns env filename exclude_pattern).getD false))

/-- `os.path.join` on POSIX paths. -/
def joinPath (a b : String) : String := a ++ "/" ++ b

/-- Embedding of `_get_files_from_directory` (lines 58-75). -/
def _get_files_from_directory (env : Env) (directory_path : String) (recursive : Bool)
    (include_pattern exclude_pattern : Option (List String)) : List String :=
  if recursive then
    (env.walk directory_path).flatMap (fun rf =>
      (rf.2.filter (fun f =>
        _check_file_include_and_exclude_pattern env f include_pattern exclude_pattern)).map
        (fun f => joinPath rf.1 f))
  else
    (env.listdir directory_path).filterMap (fun f =>
      if _check_file_include_and_exclude_pattern env f include_pattern exclude_pattern then
        if env.isFile (joinPath directory_path f) then some (joinPath directory_path f)
        else none
      else none)

/-- Embedding of `_load_built_in_regex_patterns` (lines 78-88).  A falsy
(absent/empty) confidence level defaults to HIGH; the Python set union over
the bundled catalogs is modelled as ordered concatenation. -/
def _load_built_in_regex_patterns (env : Env) (confidence_level : Option String) :
    List RegexPattern :=
  let cl := if optStrTruthy confidence_level then confidence_level.getD "" else "HIGH"
  (if cl = "HIGH" || cl = "MEDIUM" || cl = "LOW" then env.highPatterns else []) ++
  (if cl = "MEDIUM" || cl = "LOW" then env.mediumPatterns else []) ++
  (if cl = "LOW" then env.lowPatterns else [])

/-- The `Include` loop of lines 107-112 over the entry list: each entry must
carry a truthy `Pattern` field and yields one ad-hoc pattern via the
external constructor; the first invalid entry raises. -/
def loadIncludeList (env : Env) : List IncludeEntry → Except PyErr (List RegexPattern)
  | [] => .ok []
  | e :: rest =>
    if optStrTruthy e.patternField then
      match loadIncludeList env rest with
      | .error err => .error err
      | .ok ps => .ok (env.loadCustomPattern e :: ps)
    else
      .error (PyErr.valueError
        "Invalid Custom Pattern: Pattern property is required for Include patterns")

/-- Lines 107-112 including the `'Include' in custom_pattern` key check. -/
def loadIncludePatterns (env : Env) :
    Option (List IncludeEntry) → Except PyErr (List RegexPattern)
  | none => .ok []
  | some entries => loadIncludeList env entries

/-- The id-collection loop of lines 114-118: each `Exclude` entry must carry
a truthy `Id` field; the first invalid entry raises. -/
def loadExcludeIds : List ExcludeEntry → Except PyErr (List String)
  | [] => .ok []
  | e :: rest =>
    if optStrTruthy e.idField then
      match loadExcludeIds rest with
      | .error err => .error err
      | .ok ids => .ok (e.idField.getD "" :: ids)
    else
      .error (PyErr.valueError
        "Invalid Custom Pattern: Id property is required for Exclude patterns")

/-- Embedding of `_load_regex_patterns` (lines 91-125).  The JSON resolution
of the custom-pattern argument (file read / `json.loads`, lines 97-104) is
external; the parameter is the already-parsed document, `none` standing for
an absent or empty custom-pattern string. -/
def _load_regex_patterns (env : Env) (confidence_level : Option String)
    (custom_pattern : Option CustomDoc) : Except PyErr (List RegexPattern) :=
  let built_in := _load_built_in_regex_patterns env confidence_level
  match custom_pattern with
  | none => .ok built_in
  | some doc =>
    match loadIncludePatterns env doc.includeList with
    | .error e => .error e
    | .ok incPats =>
      match doc.excludeList with
      | some exEntries =>
        match loadExcludeIds exEntries with
        | .error e => .error e
        | .ok ids => .ok (incPats ++ built_in.filter (fun p => !ids.contains p.id))
      | none => .ok (incPats ++ built_in)

/-- Python slice `data[start:end]`. -/
def strSlice (l : Str) (a b : Nat) : Str := (l.take b).drop a

/-- Embedding of `_scan_secrets_for_string` (lines 128-143): Python `None`
for empty input, else the findings built from the external detections. -/
def _scan_secrets_for_string (env : Env) (data : Str) (confidence_level : Option String)
    (custom_pattern : Option CustomDoc) : Except PyErr (Option (List Finding)) :=
  if data.isEmpty then .ok none
  else
    match _load_regex_patterns env confidence_level custom_pattern with
    | .error e => .error e
    | .ok regex_patterns =>
      .ok (some ((env.detectSecrets regex_patterns data).map (fun s =>
        { secret_name := s.name, secret_value := strSlice data s.start s.stop,
          secret_index := (s.start, s.stop), redaction_token := s.redaction_token })))

/-- Python dict assignment `m[k] = v`: overwrite in place, preserving
first-insertion order. -/
def dictInsert (m : ScanResults) (k : String) (v : List Finding) : ScanResults :=
  match m with
  | [] => [(k, v)]
  | (k', v') :: rest => if k' = k then (k, v) :: rest else (k', v') :: dictInsert rest k v

/-- The `target_files` list assembled at lines 153-161: directory files
first (when a directory target is given), then the absolute file path. -/
def scanTargetFiles (env : Env) (file_path directory_path : Option String)
    (recursive : Bool) (include_pattern exclude_pattern : Option (List String)) :
    List String :=
  (if optStrTruthy directory_path then
    _get_files_from_directory env (env.abspath (directory_path.getD "")) recursive
      include_pattern exclude_pattern
   else []) ++
  (if optStrTruthy file_path then [env.abspath (file_path.getD "")] else [])

/-- The body of one iteration of the scanning loop (lines 169-178): read the
file, `continue` on empty content (`.ok none`), else scan.  Errors are the
exceptions caught at line 179 (read failures, or a pattern-loading error
raised inside the `try`). -/
def scanFileStep (env : Env) (confidence_level : Option String)
    (custom_pattern : Option CustomDoc) (f : String) :
    Except PyErr (Option (List Finding)) :=
  match env.readFile f with
  | .error e => .error e
  | .ok c =>
    if c.isEmpty then .ok none
    else
      match _scan_secrets_for_string env c confidence_level custom_pattern with
      | .error e => .error e
      | .ok o => .ok (some (o.getD []))

/-- The scanning loop over `target_files` (lines 167-183), with the
`continue_on_failure` policy of lines 179-183: under the policy a failing
file is logged (`Ev.warn`) and skipped, otherwise the exception aborts the
whole scan. -/
def scanFilesLoop (env : Env) (confidence_level : Option String)
    (custom_pattern : Option CustomDoc) (continue_on_failure : Bool)
    (acc : ScanResults) : List String → Except PyErr ScanResults × List Ev
  | [] => (.ok acc, [])
  | f :: rest =>
    match scanFileStep env confidence_level custom_pattern f with
    | .error e =>
      if continue_on_failure then
        let r := scanFilesLoop env confidence_level custom_pattern continue_on_failure acc rest
        (r.1, Ev.readF f :: Ev.warn f :: r.2)
      else (.error e, [Ev.readF f])
    | .ok none =>
      let r := scanFilesLoop env confidence_level custom_pattern continue_on_failure acc rest
      (r.1, Ev.readF f :: r.2)
    | .ok (some secrets) =>
      let acc' := if secrets.isEmpty then acc else dictInsert acc f secrets
      let r := scanFilesLoop env confidence_level custom_pattern continue_on_failure acc' rest
      (r.1, Ev.readF f :: r.2)

/-- The dict returned by `scan_secrets`: the inline form of lines 188-191 or
the persisted form of lines 194/208.  In the persisted form `written` models
the JSON content stored at the result path (`[]` when no file was written
because nothing was detected; JSON serialization is lossless for this
shape). -/
inductive ScanResponse
  | inline (secrets_detected : Bool) (scan_results : ScanResults)
  | savedR (secrets_detected : Bool) (scan_result_path : Option String) (written : ScanResults)
  deriving DecidableEq, Repr

/-- The scan stage of `scan_secrets` (lines 163-183): inline data beats
files; no target at all yields an empty result. -/
def scanCore (env : Env) (data : Option Str) (target_files : List String)
    (confidence_level : Option String) (custom_pattern : Option CustomDoc)
    (continue_on_failure : Bool) : Except PyErr ScanResults × List Ev :=
  if optDataTruthy data then
    match _scan_secrets_for_string env (data.getD []) confidence_level custom_pattern with
    | .error e => (.error e, [])
    | .ok o =>
      let secrets := o.getD []
      (.ok (if secrets.isEmpty then [] else [("raw_data", secrets)]), [])
  else if !target_files.isEmpty then
    scanFilesLoop env confidence_level custom_pattern continue_on_failure [] target_files
  else (.ok [], [])

/-- Embedding of `scan_secrets` (lines 146-208): validation, target
assembly, the scan stage, then the persistence stage of lines 185-208 (a
given `scan_result_path` forces saving; an empty result saves nothing and
reports no path; otherwise the results are written to the given or
auto-generated path and the returned path is made absolute). -/
def scan_secrets (env : Env) (file_path directory_path : Option String) (recursive : Bool)
    (include_pattern exclude_pattern : Option (List String)) (data : Option Str)
    (save_scan_result : Bool) (scan_result_path : Option String)
    (confidence_level : Option String) (custom_pattern : Option CustomDoc)
    (continue_on_failure : Bool) : Except PyErr ScanResponse × List Ev :=
  match _validate_data_path env file_path directory_path include_pattern exclude_pattern data with
  | (.error e, tr) => (.error e, tr)
  | (.ok _, tr0) =>
    let dirEvents :=
      if optStrTruthy directory_path then [Ev.listD (env.abspath (directory_path.getD ""))]
      else []
    let target_files :=
      scanTargetFiles env file_path directory_path recursive include_pattern exclude_pattern
    match scanCore env data target_files confidence_level custom_pattern continue_on_failure with
    | (.error e, tr1) => (.error e, tr0 ++ dirEvents ++ tr1)
    | (.ok scan_results, tr1) =>
      let save := save_scan_result || optStrTruthy scan_result_path
      if !save then
        (.ok (.inline (!scan_results.isEmpty) scan_results), tr0 ++ dirEvents ++ tr1)
      else if scan_results.isEmpty then
        (.ok (.savedR false none []), tr0 ++ dirEvents ++ tr1)
      else
        let path :=
          if optStrTruthy scan_result_path then scan_result_path.getD ""
          else env.autoResultPath
        (.ok (.savedR true (some (env.abspath path)) scan_results),
         tr0 ++ dirEvents ++ tr1 ++ [Ev.writeF path])

/-- The directory filter loop of lines 230-232 over a loaded result. -/
def selectSaved (saved : ScanResults) (acc : ScanResults) : List String → ScanResults
  | [] => acc
  | f :: rest =>
    match saved.lookup f with
    | some v => selectSaved saved (dictInsert acc f v) rest
    | none => selectSaved saved acc rest

/-- Embedding of `_get_scan_results_from_saved_file` (lines 211-236): the
existence check, content read and JSON parse of the saved file come FIRST
(lines 215-218), then the argument validation (line 220), then the filtering
by target; the inline-data branch (line 234) looks up the key `"raw_data"`
unconditionally and raises `KeyError` when it is absent. -/
def _get_scan_results_from_saved_file (env : Env) (saved_scan_result_path : String)
    (file_path directory_path : Option String) (recursive : Bool)
    (include_pattern exclude_pattern : Option (List String)) (data : Option Str) :
    Except PyErr ScanResults × List Ev :=
  if !env.isFile saved_scan_result_path then
    (.error (.valueError ("invalid saved scan result path:" ++ saved_scan_result_path)),
     [Ev.statF saved_scan_result_path])
  else
    match env.readFile saved_scan_result_path with
    | .error e =>
      (.error e, [Ev.statF saved_scan_result_path, Ev.readF saved_scan_result_path])
    | .ok content =>
      match env.parseScanResults content with
      | .error e =>
        (.error e, [Ev.statF saved_scan_result_path, Ev.readF saved_scan_result_path])
      | .ok saved =>
        let tr0 := [Ev.statF saved_scan_result_path, Ev.readF saved_scan_result_path]
        match _validate_data_path env file_path directory_path include_pattern
            exclude_pattern data with
        | (.error e, tr) => (.error e, tr0 ++ tr)
        | (.ok _, tr) =>
          if optStrTruthy file_path then
            let afp := env.abspath (file_path.getD "")
            (.ok (match saved.lookup afp with
                  | some v => [(afp, v)]
                  | none => []), tr0 ++ tr)
          else if optStrTruthy directory_path then
            let adp := env.abspath (directory_path.getD "")
            let target_files :=
              _get_files_from_directory env adp recursive include_pattern exclude_pattern
            (.ok (selectSaved saved [] target_files), tr0 ++ tr ++ [Ev.listD adp])
          else
            match saved.lookup "raw_data" with
            | some v => (.ok [("raw_data", v)], tr0 ++ tr)
            | none => (.error (.keyError "raw_data"), tr0 ++ tr)

/-! ## Redaction: Python `str.replace` and `_mask_secret_for_string` -/

/-- Prepend a character to the first piece of a split. -/
def consHead (c : Char) : List Str → List Str
  | [] => [[c]]
  | p :: ps => (c :: p) :: ps

/-- Greedy leftmost-first split of a text on a non-empty pattern: at each
position, if the pattern starts here, close the current piece and skip the
pattern, else keep the character.  This is the decomposition underlying
Python `str.replace`, which equals `rep.join(s.split(pat))` for non-empty
`pat`. -/
def pySplitOn (pat : Str) : Str → List Str
  | [] => [[]]
  | c :: rest =>
    if pat ≠ [] ∧ pat.isPrefixOf (c :: rest) then
      [] :: pySplitOn pat (List.drop (pat.length - 1) rest)
    else consHead c (pySplitOn pat rest)
  termination_by s => s.length
  decreasing_by
  · simp only [List.length_drop, List.length_cons]
    omega
  · simp only [List.length_cons]
    omega

/-- Join pieces with a separator (`sep.join(pieces)` for a non-empty pieces
list). -/
def joinSep (sep : Str) : List Str → Str
  | [] => []
  | [p] => p
  | p :: q :: ps => p ++ sep ++ joinSep sep (q :: ps)

/-- Python `data.replace(old, new)` on text bodies: every (non-overlapping,
leftmost-first) occurrence of `old` is replaced by `new`; an empty `old`
inserts `new` at every character boundary. -/
def pyReplace (s pat rep : Str) : Str :=
  if pat.isEmpty then rep ++ s.flatMap (fun c => c :: rep)
  else joinSep rep (pySplitOn pat s)

/-- Embedding of `_mask_secret_for_string` (lines 239-248): a global
`str.replace` of the finding's `secret_value`, the replacement chosen by the
redaction type (anything other than the three named types, including Python
`None`, falls through to the finding's redaction token). -/
def _mask_secret_for_string (data : Str) (secret : Finding)
    (redaction_type : Option String) : Str :=
  if redaction_type = some "FIXED_VALUE" then
    pyReplace data secret.secret_value ['*', '*', '*']
  else if redaction_type = some "FIXED_LENGTH" then
    pyReplace data secret.secret_value (List.replicate secret.secret_value.length '*')
  else if redaction_type = some "SECRET_NAME" then
    pyReplace data secret.secret_value secret.secret_name
  else
    pyReplace data secret.secret_value secret.redaction_token

/-! ## `mask_secrets` (lines 251-317) -/

/-- The dict returned by `mask_secrets` (lines 277-283). -/
structure MaskResult where
  mask : Bool
  data : Option Str
  file_path : Option String
  directory_path : Option String
  recursive : Bool
  deriving DecidableEq, Repr

/-- The `scan_response['scan_results']` access of line 275 (`KeyError` on a
persisted-form response, which has no such key). -/
def responseScanResults : ScanResponse → Except PyErr ScanResults
  | .inline _ r => .ok r
  | .savedR _ _ _ => .error (.keyError "scan_results")

/-- The `scan_response['scan_result_path']` access of line 271 (`KeyError`
on an inline-form response). -/
def responseResultPath : ScanResponse → Except PyErr (Option String)
  | .inline _ _ => .error (.keyError "scan_result_path")
  | .savedR _ p _ => .ok p

/-- The per-file rewrite loop of lines 301-315: read, skip empty files,
redact every finding, write back; read failures follow the
`continue_on_failure` policy.  The rewritten content is recorded in the
`Ev.writeM` event. -/
def maskFilesLoop (env : Env) (redaction_type : Option String)
    (continue_on_failure : Bool) : ScanResults → Except PyErr Unit × List Ev
  | [] => (.ok (), [])
  | (p, secrets) :: rest =>
    match env.readFile p with
    | .error e =>
      if continue_on_failure then
        let r := maskFilesLoop env redaction_type continue_on_failure rest
        (r.1, Ev.readF p :: Ev.warn p :: r.2)
      else (.error e, [Ev.readF p])
    | .ok content =>
      if content.isEmpty then
        let r := maskFilesLoop env redaction_type continue_on_failure rest
        (r.1, Ev.readF p :: r.2)
      else
        let masked :=
          secrets.foldl (fun c s => _mask_secret_for_string c s redaction_type) content
        let r := maskFilesLoop env redaction_type continue_on_failure rest
        (r.1, Ev.readF p :: Ev.writeM p masked :: r.2)

/-- Embedding of `mask_secrets` (lines 251-317).  With a saved-scan-result
path the findings are replayed from that file (lines 257-264) — including
its read and parse — BEFORE anything else; otherwise a fresh scan runs and,
when it saved its result, the written file is immediately re-read (lines
271-273; the JSON round-trip of the just-written mapping is lossless).  An
empty result returns the no-op mask result; without `yes` a negative prompt
answer returns the no-op result; `raw_data` findings redact the inline data;
otherwise each file is rewritten in place. -/
def mask_secrets (env : Env) (file_path directory_path : Option String) (recursive : Bool)
    (include_pattern exclude_pattern : Option (List String)) (data : Option Str)
    (save_scan_result : Bool) (scan_result_path : Option String)
    (confidence_level : Option String) (custom_pattern : Option CustomDoc)
    (continue_on_failure : Bool) (saved_scan_result_path : Option String)
    (redaction_type : Option String) (yes : Bool) : Except PyErr MaskResult × List Ev :=
  let stage1 : Except PyErr ScanResults × List Ev :=
    if optStrTruthy saved_scan_result_path then
      _get_scan_results_from_saved_file env (saved_scan_result_path.getD "")
        file_path directory_path recursive include_pattern exclude_pattern data
    else
      match scan_secrets env file_path directory_path recursive include_pattern
          exclude_pattern data save_scan_result scan_result_path confidence_level
          custom_pattern continue_on_failure with
      | (.error e, tr) => (.error e, tr)
      | (.ok resp, tr) =>
        if save_scan_result then
          match responseResultPath resp with
          | .error e => (.error e, tr)
          | .ok (some p) =>
            match resp with
            | .savedR _ _ written => (.ok written, tr ++ [Ev.readF p])
            | .inline _ r => (.ok r, tr)
          | .ok none => (.ok [], tr)
        else
          match responseScanResults resp with
          | .error e => (.error e, tr)
          | .ok r => (.ok r, tr)
  match stage1 with
  | (.error e, tr) => (.error e, tr)
  | (.ok scan_results, tr) =>
    let mask_result : MaskResult :=
      { mask := false, data := data, file_path := file_path,
        directory_path := directory_path, recursive := recursive }
    if scan_results.isEmpty then (.ok mask_result, tr ++ [Ev.warn "no-secrets"])
    else if !yes && !env.promptAnswer then (.ok mask_result, tr)
    else
      match scan_results.lookup "raw_data" with
      | some secrets =>
        let newData :=
          secrets.foldl (fun c s => _mask_secret_for_string c s redaction_type) (data.getD [])
        (.ok { mask_result with mask := true, data := some newData }, tr)
      | none =>
        match maskFilesLoop env redaction_type continue_on_failure scan_results with
        | (.error e, tr2) => (.error e, tr ++ tr2)
        | (.ok _, tr2) => (.ok { mask_result with mask := true }, tr ++ tr2)

/-! ## C4: properties of the greedy split underlying `str.replace` -/

theorem consHead_ne_nil (c : Char) (l : List Str) : consHead c l ≠ [] := by
  cases l <;> simp [consHead]

theorem pySplitOn_ne_nil (pat s : Str) : pySplitOn pat s ≠ [] := by
  cases s with
  | nil => simp [pySplitOn]
  | cons c rest =>
    rw [pySplitOn]
    split
    · simp
    · exact consHead_ne_nil _ _

theorem joinSep_consHead (sep : Str) (c : Char) (l : List Str) (h : l ≠ []) :
    joinSep sep (consHead c l) = c :: joinSep sep l := by
  match l with
  | [] => exact absurd rfl h
  | [p] => rfl
  | p :: q :: ps => rfl

/-- Joining the split pieces back with the pattern recovers the input: the
split decomposes the text exactly at the pattern's occurrences. -/
theorem pySplitOn_joinN (pat : Str) (hp : pat ≠ []) :
    ∀ (n : Nat) (s : Str), s.length ≤ n → joinSep pat (pySplitOn pat s) = s := by
  intro n
  induction n with
  | zero =>
    intro s hs
    have hnil : s = [] := List.length_eq_zero.mp (Nat.le_zero.mp hs)
    subst hnil
    simp [pySplitOn, joinSep]
  | succ n ih =>
    intro s hs
    match s with
    | [] => simp [pySplitOn, joinSep]
    | c :: rest =>
      rw [pySplitOn]
      split
      · next h =>
        obtain ⟨-, hpre⟩ := h
        match hps2 : pySplitOn pat (List.drop (pat.length - 1) rest) with
        | [] => exact absurd hps2 (pySplitOn_ne_nil pat _)
        | p :: ps =>
          have hjoin : joinSep pat ([] :: p :: ps) = pat ++ joinSep pat (p :: ps) := rfl
          rw [hjoin]
          have hlen : (List.drop (pat.length - 1) rest).length ≤ n := by
            simp only [List.length_drop]
            simp only [List.length_cons] at hs
            omega
          rw [← hps2, ih _ hlen]
          have hpre' : pat <+: (c :: rest) := ( List.isPrefixOf_iff_prefix).mp hpre
          obtain ⟨t, ht⟩ := hpre'
          have hdrop : t = List.drop pat.length (c :: rest) := by
            rw [← ht, List.drop_left]
          obtain ⟨k, hk⟩ := Nat.exists_eq_succ_of_ne_zero
            (fun h0 => hp (List.length_eq_zero.mp h0))
          rw [hk] at hdrop
          simp only [List.drop_succ_cons] at hdrop
          have : pat.length - 1 = k := by omega
          rw [this, ← hdrop, ht]
      · next h =>
        simp only [List.length_cons] at hs
        rw [joinSep_consHead pat c _ (pySplitOn_ne_nil pat rest), ih rest (by omega)]

theorem pySplitOn_join (pat : Str) (hp : pat ≠ []) (s : Str) :
    joinSep pat (pySplitOn pat s) = s :=
  pySplitOn_joinN pat hp s.length s le_rfl

/-- No piece of the split still contains the pattern: every occurrence was
consumed by the split. -/
theorem pySplitOn_not_infixN (pat : Str) (hp : pat ≠ []) :
    ∀ (n : Nat) (s : Str), s.length ≤ n → ∀ p ∈ pySplitOn pat s, ¬ pat <:+: p := by
  intro n
  induction n with
  | zero =>
    intro s hs p hpmem hinf
    have hnil : s = [] := List.length_eq_zero.mp (Nat.le_zero.mp hs)
    subst hnil
    simp [pySplitOn] at hpmem
    subst hpmem
    exact hp (List.length_eq_zero.mp (Nat.le_zero.mp hinf.length_le))
  | succ n ih =>
    intro s hs p hpmem
    match s with
    | [] =>
      simp [pySplitOn] at hpmem
      subst hpmem
      intro hinf
      exact hp (List.length_eq_zero.mp (Nat.le_zero.mp hinf.length_le))
    | c :: rest =>
      rw [pySplitOn] at hpmem
      split at hpmem
      · next h =>
        rcases List.mem_cons.mp hpmem with h1 | h2
        · subst h1
          intro hinf
          exact hp (List.length_eq_zero.mp (Nat.le_zero.mp hinf.length_le))
        · refine ih _ ?_ p h2
          simp only [List.length_drop]
          simp only [List.length_cons] at hs
          omega
      · next h =>
        have hrlen : rest.length ≤ n := by
          simp only [List.length_cons] at hs
          omega
        match hsp : pySplitOn pat rest with
        | [] => exact absurd hsp (pySplitOn_ne_nil pat rest)
        | p0 :: ps =>
          rw [hsp] at hpmem
          simp only [consHead, List.mem_cons] at hpmem
          rcases hpmem with h1 | h2
          · subst h1
            intro hinf
            rcases ( List.infix_cons_iff).mp hinf with hpre2 | hinf2
            · have hrestjoin := pySplitOn_join pat hp rest
              rw [hsp] at hrestjoin
              have hp0 : p0 <+: rest := by
                match ps with
                | [] => exact hrestjoin ▸ List.prefix_rfl
                | q :: qs =>
                  refine ⟨pat ++ joinSep pat (q :: qs), ?_⟩
                  rw [← hrestjoin]
                  simp [joinSep]
              have hcp : (c :: p0) <+: (c :: rest) := List.cons_prefix_cons.mpr ⟨rfl, hp0⟩
              have : pat <+: (c :: rest) := hpre2.trans hcp
              have : pat.isPrefixOf (c :: rest) = true := ( List.isPrefixOf_iff_prefix).mpr this
              exact (by simp [hp, this] at h)
            · exact ih rest hrlen p0 (by rw [hsp]; exact List.mem_cons_self _ _) hinf2
          · exact ih rest hrlen p (by rw [hsp]; exact List.mem_cons_of_mem _ h2)

theorem pySplitOn_not_infix (pat : Str) (hp : pat ≠ []) (s : Str) :
    ∀ p ∈ pySplitOn pat s, ¬ pat <:+: p :=
  pySplitOn_not_infixN pat hp s.length s le_rfl

/-- The replacement text the claim assigns to each redaction type. -/
def specRedactionText (secret : Finding) (redaction_type : Option String) : Str :=
  if redaction_type = some "FIXED_VALUE" then ['*', '*', '*']
  else if redaction_type = some "FIXED_LENGTH" then
    List.replicate secret.secret_value.length '*'
  else if redaction_type = some "SECRET_NAME" then secret.secret_name
  else secret.redaction_token

/-- C4: for every text body, finding (with a non-empty secret value) and
redaction type, masking is the global replacement of every literal
occurrence of `secret_value` — the output is the pattern-occurrence
decomposition of the body rejoined with the replacement text ("***" for
FIXED_VALUE, a same-length run of '*' for FIXED_LENGTH, the secret name for
SECRET_NAME, the redaction token for anything else); the decomposition
rejoined with the secret value is the body itself, and no piece of it still
contains the secret value. -/
theorem c4_mask_secret_for_string (data : Str) (secret : Finding)
    (redaction_type : Option String) (hne : secret.secret_value ≠ []) :
    _mask_secret_for_string data secret redaction_type =
      joinSep (specRedactionText secret redaction_type)
        (pySplitOn secret.secret_value data) ∧
    joinSep secret.secret_value (pySplitOn secret.secret_value data) = data ∧
    (∀ p ∈ pySplitOn secret.secret_value data, ¬ secret.secret_value <:+: p) := by
  refine ⟨?_, pySplitOn_join _ hne data, pySplitOn_not_infix _ hne data⟩
  have hemp : secret.secret_value.isEmpty = false := by
    cases hv : secret.secret_value
    · exact absurd hv hne
    · rfl
  unfold _mask_secret_for_string specRedactionText pyReplace
  split_ifs <;> simp_all [hemp]

theorem c4_mask_secret_for_string_witness :
    ("my secret here secret".data ≠ [] ∧
      _mask_secret_for_string "xx secret yy secret zz".data
          ⟨"nm".data, "secret".data, (3, 9), "tok".data⟩ (some "FIXED_VALUE") =
        joinSep "***".data (pySplitOn "secret".data "xx secret yy secret zz".data)) ∧
    joinSep "secret".data (pySplitOn "secret".data "xx secret yy secret zz".data) =
      "xx secret yy secret zz".data := by
  have h := c4_mask_secret_for_string "xx secret yy secret zz".data
    ⟨"nm".data, "secret".data, (3, 9), "tok".data⟩ (some "FIXED_VALUE") (by decide)
  exact ⟨⟨by decide, h.1⟩, h.2.1⟩

/-! ## C3: the pattern registry composition -/

theorem loadIncludePatterns_wf (env : Env) (entries : List IncludeEntry)
    (hwf : ∀ e ∈ entries, optStrTruthy e.patternField = true) :
    loadIncludePatterns env (some entries) = .ok (entries.map env.loadCustomPattern) := by
  induction entries with
  | nil => rfl
  | cons e rest ih =>
    have he := hwf e (List.mem_cons_self _ _)
    have ihr := ih (fun x hx => hwf x (List.mem_cons_of_mem _ hx))
    simp only [loadIncludePatterns] at ihr ⊢
    simp [loadIncludeList, he, ihr]

theorem loadExcludeIds_wf (entries : List ExcludeEntry)
    (hwf : ∀ e ∈ entries, optStrTruthy e.idField = true) :
    loadExcludeIds entries = .ok (entries.map (fun e => e.idField.getD "")) := by
  induction entries with
  | nil => rfl
  | cons e rest ih =>
    have he := hwf e (List.mem_cons_self _ _)
    have ihr := ih (fun x hx => hwf x (List.mem_cons_of_mem _ hx))
    simp [loadExcludeIds, he, ihr]

/-- The ad-hoc patterns the claim derives from the `Include` list. -/
def includePatternsOf (env : Env) (doc : CustomDoc) : List RegexPattern :=
  (doc.includeList.getD []).map env.loadCustomPattern

/-- The pattern ids the claim derives from the `Exclude` list. -/
def excludeIdsOf (doc : CustomDoc) : List String :=
  (doc.excludeList.getD []).map (fun e => e.idField.getD "")

/-- C3: with a custom document whose entries are well-formed, the registry
yields exactly (Include-constructed patterns) followed by (built-ins of the
resolved tier minus those whose id is named in Exclude); with no custom
document the result is exactly the built-ins (also when the document has
neither key, since then nothing is added or removed); an Exclude id that
matches no built-in pattern id changes nothing. -/
theorem c3_load_regex_patterns (env : Env) (confidence_level : Option String)
    (custom_pattern : Option CustomDoc) :
    (custom_pattern = none →
      _load_regex_patterns env confidence_level custom_pattern =
        .ok (_load_built_in_regex_patterns env confidence_level)) ∧
    (∀ doc, custom_pattern = some doc →
      (∀ e ∈ doc.includeList.getD [], optStrTruthy e.patternField = true) →
      (∀ e ∈ doc.excludeList.getD [], optStrTruthy e.idField = true) →
      _load_regex_patterns env confidence_level custom_pattern =
        .ok (includePatternsOf env doc ++
          (_load_built_in_regex_patterns env confidence_level).filter
            (fun p => !(excludeIdsOf doc).contains p.id))) ∧
    (∀ x ids, x ∉ (_load_built_in_regex_patterns env confidence_level).map RegexPattern.id →
      (_load_built_in_regex_patterns env confidence_level).filter
          (fun p => !(x :: ids).contains p.id) =
        (_load_built_in_regex_patterns env confidence_level).filter
          (fun p => !ids.contains p.id)) := by
  refine ⟨?_, ?_, ?_⟩
  · intro h
    simp [_load_regex_patterns, h]
  · intro doc hdoc hinc hexc
    subst hdoc
    unfold _load_regex_patterns
    cases hincL : doc.includeList with
    | none =>
      cases hexcL : doc.excludeList with
      | none =>
        simp [loadIncludePatterns, includePatternsOf, excludeIdsOf, hincL, hexcL]
      | some exEntries =>
        rw [hexcL] at hexc
        have := loadExcludeIds_wf exEntries (by simpa using hexc)
        simp [loadIncludePatterns, includePatternsOf, excludeIdsOf, hincL, hexcL, this]
    | some entries =>
      rw [hincL] at hinc
      have hi := loadIncludePatterns_wf env entries (by simpa using hinc)
      cases hexcL : doc.excludeList with
      | none =>
        simp [includePatternsOf, excludeIdsOf, hincL, hexcL, hi]
      | some exEntries =>
        rw [hexcL] at hexc
        have hx := loadExcludeIds_wf exEntries (by simpa using hexc)
        simp [includePatternsOf, excludeIdsOf, hincL, hexcL, hi, hx]
  · intro x ids hx
    apply List.filter_congr
    intro p hp
    have : p.id ≠ x := by
      intro hcontra
      exact hx (hcontra ▸ List.mem_map_of_mem RegexPattern.id hp)
    simp [List.contains_cons, this]

/-- A small concrete external world used by witnesses: one built-in pattern
per tier, a detector that flags the body `"sec"` whenever at least one
pattern is active. -/
def baseEnv : Env :=
  { isFile := fun _ => false, isDir := fun _ => false, walk := fun _ => [],
    listdir := fun _ => [], abspath := id,
    readFile := fun _ => .error (.ioError "no such file"),
    fnmatch := fun _ _ => false,
    highPatterns := [⟨"P1"⟩], mediumPatterns := [⟨"P2"⟩], lowPatterns := [⟨"P3"⟩],
    loadCustomPattern := fun _ => ⟨"CUSTOM"⟩,
    detectSecrets := fun ps d =>
      if ps.isEmpty then [] else if d = "sec".data then [⟨"nm".data, 0, 3, "tok".data⟩] else [],
    parseScanResults := fun _ => .error (.valueError "bad json"),
    autoResultPath := "auto.json", promptAnswer := true }

def c3demoDoc : CustomDoc :=
  { includeList := some [{ patternField := some "secret", nameField := some "CustomSecret" }],
    excludeList := some [{ idField := some "P1", nameField := none }] }

theorem c3_load_regex_patterns_witness :
    _load_regex_patterns baseEnv none (some c3demoDoc) =
      .ok (includePatternsOf baseEnv c3demoDoc ++
        (_load_built_in_regex_patterns baseEnv none).filter
          (fun p => !(excludeIdsOf c3demoDoc).contains p.id)) :=
  (c3_load_regex_patterns baseEnv none (some c3demoDoc)).2.1 c3demoDoc rfl
    (by decide) (by decide)

/-! ## C10: unknown confidence levels -/

/-- C10: a non-empty confidence level outside {HIGH, MEDIUM, LOW} makes the
built-in loader silently return the empty set (no error), so — whenever the
external masker detects nothing under an empty pattern list — a scan with
such a level and no custom Include patterns detects no secrets in any
input; the HIGH default applies exactly when the level is absent or empty. -/
theorem c10_unknown_confidence_level (env : Env) (level : String)
    (custom : Option CustomDoc)
    (hne : level ≠ "") (hnot : level ∉ (["HIGH", "MEDIUM", "LOW"] : List String))
    (hdet : ∀ s, env.detectSecrets [] s = [])
    (hinc : ∀ doc, custom = some doc → doc.includeList = none ∨ doc.includeList = some [])
    (hexc : ∀ doc, custom = some doc →
      ∀ e ∈ doc.excludeList.getD [], optStrTruthy e.idField = true) :
    _load_built_in_regex_patterns env (some level) = [] ∧
    _load_regex_patterns env (some level) custom = .ok [] ∧
    (∀ data, data ≠ [] →
      _scan_secrets_for_string env data (some level) custom = .ok (some [])) ∧
    (∀ data, data ≠ [] →
      scan_secrets env none none false none none (some data) false none (some level)
        custom false = (.ok (.inline false []), [])) ∧
    _load_built_in_regex_patterns env none = env.highPatterns ∧
    _load_built_in_regex_patterns env (some "") = env.highPatterns := by
  have hlemp : level.isEmpty = false := by
    cases h : level.isEmpty
    · rfl
    · exact absurd ((String.isEmpty_iff level).mp h) hne
  simp only [List.mem_cons, List.mem_singleton, not_or] at hnot
  have hH : level ≠ "HIGH" := hnot.1
  have hM : level ≠ "MEDIUM" := hnot.2.1
  have hL : level ≠ "LOW" := hnot.2.2.1
  have hbuilt : _load_built_in_regex_patterns env (some level) = [] := by
    simp [_load_built_in_regex_patterns, optStrTruthy, hlemp, hH, hM, hL]
  have hload : _load_regex_patterns env (some level) custom = .ok [] := by
    cases hc : custom with
    | none => simp [_load_regex_patterns, hbuilt]
    | some doc =>
      have hincPats : loadIncludePatterns env doc.includeList = .ok [] := by
        rcases hinc doc hc with h | h <;> simp [h, loadIncludePatterns, loadIncludeList]
      cases hexcL : doc.excludeList with
      | none => simp [_load_regex_patterns, hbuilt, hincPats, hexcL]
      | some exEntries =>
        have hids := loadExcludeIds_wf exEntries (by
          have h2 := hexc doc hc
          rw [hexcL] at h2
          simpa using h2)
        simp [_load_regex_patterns, hbuilt, hincPats, hexcL, hids]
  refine ⟨hbuilt, hload, ?_, ?_, ?_, ?_⟩
  · intro data hd
    have hde : data.isEmpty = false := by cases data with
      | nil => exact absurd rfl hd
      | cons a l => rfl
    simp [_scan_secrets_for_string, hde, hload, hdet]
  · intro data hd
    have hde : data.isEmpty = false := by cases data with
      | nil => exact absurd rfl hd
      | cons a l => rfl
    have hscan : _scan_secrets_for_string env data (some level) custom = .ok (some []) := by
      simp [_scan_secrets_for_string, hde, hload, hdet]
    have hval : _validate_data_path env none none none none (some data) = (.ok (), []) := by
      simp [_validate_data_path, optStrTruthy, optListTruthy, optDataTruthy, hde]
    have hcore : scanCore env (some data) [] (some level) custom false = (.ok [], []) := by
      simp [scanCore, optDataTruthy, hde, hscan]
    have htf : scanTargetFiles env none none false none none = [] := by
      simp [scanTargetFiles, optStrTruthy]
    simp [scan_secrets, hval, htf, hcore, optStrTruthy]
  · simp [_load_built_in_regex_patterns, optStrTruthy]
  · have he : ("" : String).isEmpty = true := rfl
    simp [_load_built_in_regex_patterns, optStrTruthy, he]

theorem c10_unknown_confidence_level_witness :
    _load_built_in_regex_patterns baseEnv (some "low") = [] ∧
    scan_secrets baseEnv none none false none none (some "sec".data) false none
        (some "low") none false = (.ok (.inline false []), []) := by
  have h := c10_unknown_confidence_level baseEnv "low" none (by decide) (by decide)
    (fun s => rfl) (fun d hd => by cases hd) (fun d hd => by cases hd)
  exact ⟨h.1, h.2.2.2.1 "sec".data (by decide)⟩

/-! ## C7: empty and unreadable files during the scan loop -/

/-- C7 (amended): during the scan over retained files, a file whose read (or
per-file scan) raises an exception is skipped with a logged warning when
continue_on_failure is set, and otherwise the exception propagates and
aborts the whole scan; a file whose content is EMPTY is always skipped
silently — no warning and no error — under either policy, so an empty file
never aborts the scan. -/
theorem c7_scan_loop_policy (env : Env) (cl : Option String) (cp : Option CustomDoc)
    (acc : ScanResults) (f : String) (rest : List String) :
    (∀ e, env.readFile f = .error e →
      scanFilesLoop env cl cp true acc (f :: rest) =
        ((scanFilesLoop env cl cp true acc rest).1,
         Ev.readF f :: Ev.warn f :: (scanFilesLoop env cl cp true acc rest).2) ∧
      scanFilesLoop env cl cp false acc (f :: rest) = (.error e, [Ev.readF f])) ∧
    (env.readFile f = .ok [] → ∀ cof,
      scanFilesLoop env cl cp cof acc (f :: rest) =
        ((scanFilesLoop env cl cp cof acc rest).1,
         Ev.readF f :: (scanFilesLoop env cl cp cof acc rest).2)) := by
  constructor
  · intro e he
    constructor <;> simp [scanFilesLoop, scanFileStep, he]
  · intro he cof
    simp [scanFilesLoop, scanFileStep, he]

/-- An external world holding exactly one file, `e.txt`, which is empty. -/
def c7Env : Env :=
  { baseEnv with
    isFile := fun p => p = "e.txt",
    readFile := fun p => if p = "e.txt" then .ok [] else .error (.ioError "no such file") }

theorem c7_scan_loop_policy_witness :
    scanFilesLoop c7Env none none false [] ["e.txt"] =
      ((scanFilesLoop c7Env none none false [] ([] : List String)).1,
       Ev.readF "e.txt" :: (scanFilesLoop c7Env none none false [] ([] : List String)).2) :=
  (c7_scan_loop_policy c7Env none none [] "e.txt" []).2 (by decide) false

/-- C7 counterexample: with the DEFAULT policy (continue_on_failure unset),
scanning a single empty file completes successfully with no findings — the
empty file is skipped silently — rather than aborting the scan as the claim
states. -/
theorem c7_counterexample :
    scan_secrets c7Env (some "e.txt") none false none none none false none none none false =
      (.ok (.inline false []), [Ev.statF "e.txt", Ev.readF "e.txt"]) := by
  decide

/-! ## C9: replaying a saved result with an inline-data target -/

/-- C9: replaying a saved scan result against an inline-data target looks up
the key `"raw_data"` unconditionally: when the parsed saved mapping has no
such key, both the filter helper and the whole masking call raise an
uncaught `KeyError` instead of returning an empty result. -/
theorem c9_raw_data_keyerror (env : Env) (savedPath : String) (data : Str)
    (saved : ScanResults) (content : Str)
    (hfile : env.isFile savedPath = true)
    (hread : env.readFile savedPath = .ok content)
    (hparse : env.parseScanResults content = .ok saved)
    (hkey : saved.lookup "raw_data" = none)
    (hdata : data ≠ []) (hpne : savedPath ≠ "")
    (sv : Bool) (spath cl : Option String) (cp : Option CustomDoc) (cof : Bool)
    (rt : Option String) (yes : Bool) :
    (_get_scan_results_from_saved_file env savedPath none none false none none
        (some data)).1 = .error (.keyError "raw_data") ∧
    (mask_secrets env none none false none none (some data) sv spath cl cp cof
        (some savedPath) rt yes).1 = .error (.keyError "raw_data") := by
  have hde : data.isEmpty = false := by
    cases data with
    | nil => exact absurd rfl hdata
    | cons a l => rfl
  have hval : _validate_data_path env none none none none (some data) = (.ok (), []) := by
    simp [_validate_data_path, optStrTruthy, optListTruthy, optDataTruthy, hde]
  have hget : _get_scan_results_from_saved_file env savedPath none none false none none
      (some data) =
      (.error (.keyError "raw_data"), [Ev.statF savedPath, Ev.readF savedPath]) := by
    simp [_get_scan_results_from_saved_file, hfile, hread, hparse, hval, optStrTruthy, hkey]
  have hpemp : savedPath.isEmpty = false := by
    cases h : savedPath.isEmpty
    · rfl
    · exact absurd ((String.isEmpty_iff savedPath).mp h) hpne
  refine ⟨by rw [hget], ?_⟩
  simp [mask_secrets, optStrTruthy, hpemp, hget]

/-- An external world holding one saved scan-result file whose parsed
mapping has a key other than `"raw_data"`. -/
def c9Env : Env :=
  { baseEnv with
    isFile := fun p => p = "saved.json",
    readFile := fun p => if p = "saved.json" then .ok ['J'] else .error (.ioError "no such file"),
    parseScanResults := fun c =>
      if c = ['J'] then .ok [("other.txt", [])] else .error (.valueError "bad json") }

theorem c9_raw_data_keyerror_witness :
    (mask_secrets c9Env none none false none none (some "abc".data) false none none none
        false (some "saved.json") none true).1 = .error (.keyError "raw_data") :=
  (c9_raw_data_keyerror c9Env "saved.json" "abc".data [("other.txt", [])] ['J']
    (by decide) (by decide) (by decide) (by decide) (by decide) (by decide)
    false none none none false none true).2

/-! ## C8: configuration errors versus I/O order -/

/-- The invalid target/filter combinations the claim enumerates: more than
one of {file, directory, data}, none of the three, glob filters without a
directory, or both glob filters together. -/
def configInvalid (file_path directory_path : Option String)
    (include_pattern exclude_pattern : Option (List String)) (data : Option Str) : Bool :=
  (optStrTruthy file_path && optStrTruthy directory_path) ||
  (optStrTruthy file_path && optDataTruthy data) ||
  (optStrTruthy directory_path && optDataTruthy data) ||
  (!optStrTruthy file_path && !optStrTruthy directory_path && !optDataTruthy data) ||
  (!optStrTruthy directory_path && optListTruthy include_pattern) ||
  (!optStrTruthy directory_path && optListTruthy exclude_pattern) ||
  (optListTruthy include_pattern && optListTruthy exclude_pattern)

set_option maxHeartbeats 1600000 in
theorem validate_configInvalid_error (env : Env) (fp dp : Option String)
    (inc exc : Option (List String)) (data : Option Str)
    (hinv : configInvalid fp dp inc exc data = true) :
    ∃ e, (_validate_data_path env fp dp inc exc data).1 = .error e := by
  simp only [configInvalid, Bool.or_eq_true, Bool.and_eq_true, Bool.not_eq_true'] at hinv
  unfold _validate_data_path
  split_ifs <;> first
  | exact ⟨_, rfl⟩
  | (exfalso
     simp_all
     try tauto)

set_option maxHeartbeats 1600000 in
theorem validate_trace_stats (env : Env) (fp dp : Option String)
    (inc exc : Option (List String)) (data : Option Str) :
    ∀ ev ∈ (_validate_data_path env fp dp inc exc data).2, ev.isStat = true := by
  unfold _validate_data_path
  split_ifs <;> intro ev hev <;>
    simp only [List.mem_append, List.mem_cons, List.not_mem_nil, or_false, false_or] at hev <;>
    first
    | rfl
    | exact hev.elim
    | (subst hev; rfl)
    | (rcases hev with h | h <;> (subst h; rfl))

/-- C8 (amended): every invalid target/filter combination makes the call
fail, but the point at which it fails relative to I/O differs by path.  On
the direct scan path the error is raised before any file content is read or
written and before any directory is listed: the scan returns an error and
its trace holds only metadata (stat) events.  On the mask path that replays
a saved scan result, the saved result file is read and parsed FIRST: the
call still errors, but the read of the saved file has already happened. -/
theorem c8_config_errors (env : Env) (fp dp : Option String)
    (inc exc : Option (List String)) (data : Option Str)
    (hinv : configInvalid fp dp inc exc data = true) :
    (∀ rec sv spath cl cp cof,
      (∃ e, (scan_secrets env fp dp rec inc exc data sv spath cl cp cof).1 = .error e) ∧
      (∀ ev ∈ (scan_secrets env fp dp rec inc exc data sv spath cl cp cof).2,
        ev.isStat = true)) ∧
    (∀ savedPath content saved, savedPath ≠ "" →
      env.isFile savedPath = true →
      env.readFile savedPath = .ok content →
      env.parseScanResults content = .ok saved →
      (∃ e, (_get_scan_results_from_saved_file env savedPath fp dp false inc exc
          data).1 = .error e) ∧
      Ev.readF savedPath ∈
        (_get_scan_results_from_saved_file env savedPath fp dp false inc exc data).2 ∧
      ∀ sv spath cl cp cof rt yes,
        (∃ e, (mask_secrets env fp dp false inc exc data sv spath cl cp cof
          (some savedPath) rt yes).1 = .error e) ∧
        Ev.readF savedPath ∈ (mask_secrets env fp dp false inc exc data sv spath cl cp cof
          (some savedPath) rt yes).2) := by
  obtain ⟨e0, he0⟩ := validate_configInvalid_error env fp dp inc exc data hinv
  have hstats := validate_trace_stats env fp dp inc exc data
  constructor
  · intro rec sv spath cl cp cof
    cases hv : _validate_data_path env fp dp inc exc data with
    | mk r tr =>
      cases r with
      | ok u => rw [hv] at he0; cases he0
      | error e =>
        rw [hv] at hstats
        constructor
        · exact ⟨e, by simp [scan_secrets, hv]⟩
        · intro ev hev
          simp only [scan_secrets, hv] at hev
          exact hstats ev hev
  · intro savedPath content saved hpne hfile hread hparse
    cases hv : _validate_data_path env fp dp inc exc data with
    | mk r tr =>
      cases r with
      | ok u => rw [hv] at he0; cases he0
      | error e =>
        have hget : _get_scan_results_from_saved_file env savedPath fp dp false inc exc
            data = (.error e, [Ev.statF savedPath, Ev.readF savedPath] ++ tr) := by
          simp [_get_scan_results_from_saved_file, hfile, hread, hparse, hv]
        have hpemp : savedPath.isEmpty = false := by
          cases h : savedPath.isEmpty
          · rfl
          · exact absurd ((String.isEmpty_iff savedPath).mp h) hpne
        refine ⟨⟨e, by rw [hget]⟩, by rw [hget]; simp, ?_⟩
        intro sv spath cl cp cof rt yes
        have hmask : mask_secrets env fp dp false inc exc data sv spath cl cp cof
            (some savedPath) rt yes =
            (.error e, [Ev.statF savedPath, Ev.readF savedPath] ++ tr) := by
          simp [mask_secrets, optStrTruthy, hpemp, hget]
        exact ⟨⟨e, by rw [hmask]⟩, by rw [hmask]; simp⟩

/-- C8 counterexample to the claim as stated: a masking call that replays a
saved scan result while passing both a file target and inline data (one of
the listed configuration errors) first reads and parses the saved result
file, and only then raises the configuration error — so the configuration
error is NOT raised before all file I/O on this path. -/
theorem c8_counterexample :
    mask_secrets c9Env (some "a.txt") none false none none (some "x".data) false none
        none none false (some "saved.json") none true =
      (.error (.valueError "Can not specify file path and raw string at the same time"),
       [Ev.statF "saved.json", Ev.readF "saved.json"]) := by
  decide

theorem c8_config_errors_witness :
    ∃ e, (scan_secrets baseEnv (some "a.txt") (some "d") false none none none false none
        none none false).1 = .error e :=
  ((c8_config_errors baseEnv (some "a.txt") (some "d") none none none
    (by decide)).1 false false none none none false).1

/-! ## C2: the scan / persist / load / filter round trip -/

theorem dictInsert_not_mem (m : ScanResults) (k : String) (v : List Finding)
    (h : k ∉ m.map Prod.fst) : dictInsert m k v = m ++ [(k, v)] := by
  induction m with
  | nil => rfl
  | cons p rest ih =>
    obtain ⟨k', v'⟩ := p
    simp only [List.map_cons, List.mem_cons, not_or] at h
    have hne : ¬ k' = k := fun heq => h.1 heq.symm
    simp [dictInsert, hne, ih h.2]

/-- The contribution of one target file to the scan result: nothing for an
erroring, empty or finding-free file, its findings otherwise. -/
def scanFileOutcome (env : Env) (cl : Option String) (cp : Option CustomDoc)
    (f : String) : Option (String × List Finding) :=
  match scanFileStep env cl cp f with
  | .error _ => none
  | .ok none => none
  | .ok (some s) => if s.isEmpty then none else some (f, s)

theorem scanFileOutcome_shape (env : Env) (cl : Option String) (cp : Option CustomDoc)
    (g : String) :
    scanFileOutcome env cl cp g = none ∨
    ∃ s, scanFileOutcome env cl cp g = some (g, s) := by
  unfold scanFileOutcome
  cases scanFileStep env cl cp g with
  | error e => exact Or.inl rfl
  | ok o =>
    cases o with
    | none => exact Or.inl rfl
    | some s => by_cases h : s.isEmpty <;> simp [h]

/-- A successful scan loop run over distinct targets (whose accumulator keys
do not collide with them) appends exactly the per-file outcomes. -/
theorem scanFilesLoop_ok (env : Env) (cl : Option String) (cp : Option CustomDoc)
    (cof : Bool) :
    ∀ (fs : List String) (acc m : ScanResults),
      fs.Nodup → (∀ k ∈ acc.map Prod.fst, k ∉ fs) →
      (scanFilesLoop env cl cp cof acc fs).1 = .ok m →
      m = acc ++ fs.filterMap (scanFileOutcome env cl cp) := by
  intro fs
  induction fs with
  | nil =>
    intro acc m _ _ h
    simp only [scanFilesLoop] at h
    injection h with h
    simp [← h]
  | cons f rest ih =>
    intro acc m hnd hdisj h
    have hndr : rest.Nodup := (List.nodup_cons.mp hnd).2
    have hfr : f ∉ rest := (List.nodup_cons.mp hnd).1
    have hdisjr : ∀ k ∈ acc.map Prod.fst, k ∉ rest :=
      fun k hk hmem => hdisj k hk (List.mem_cons_of_mem _ hmem)
    simp only [scanFilesLoop] at h
    cases hs : scanFileStep env cl cp f with
    | error e =>
      rw [hs] at h
      cases hcof : cof
      · subst hcof
        simp at h
      · subst hcof
        simp only [if_pos rfl, if_true] at h
        have := ih acc m hndr hdisjr h
        simp [this, List.filterMap_cons, scanFileOutcome, hs]
    | ok o =>
      rw [hs] at h
      cases o with
      | none =>
        simp only [] at h
        have := ih acc m hndr hdisjr h
        simp [this, List.filterMap_cons, scanFileOutcome, hs]
      | some s =>
        by_cases hse : s.isEmpty
        · simp only [hse, if_pos rfl, if_true] at h
          have := ih acc m hndr hdisjr h
          simp [this, List.filterMap_cons, scanFileOutcome, hs, hse]
        · have hfacc : f ∉ acc.map Prod.fst := fun hmem =>
            hdisj f hmem (List.mem_cons_self _ _)
          have hins : dictInsert acc f s = acc ++ [(f, s)] := dictInsert_not_mem acc f s hfacc
          simp only [hse, if_neg, if_false] at h
          rw [if_neg (by simp [hse])] at h
          rw [hins] at h
          have hdisj2 : ∀ k ∈ (acc ++ [(f, s)]).map Prod.fst, k ∉ rest := by
            intro k hk
            simp only [List.map_append, List.mem_append, List.map_cons, List.mem_cons,
              List.not_mem_nil, List.map_nil, or_false] at hk
            rcases hk with hk | hk
            · exact hdisjr k hk
            · subst hk; exact hfr
          have := ih (acc ++ [(f, s)]) m hndr hdisj2 h
          simp [this, List.filterMap_cons, scanFileOutcome, hs, hse]

theorem lookup_filterMap_none (env : Env) (cl : Option String) (cp : Option CustomDoc)
    (fs : List String) (f : String) (hf : f ∉ fs) :
    (fs.filterMap (scanFileOutcome env cl cp)).lookup f = none := by
  induction fs with
  | nil => rfl
  | cons g rest ih =>
    simp only [List.mem_cons, not_or] at hf
    rcases scanFileOutcome_shape env cl cp g with h | ⟨s, h⟩
    · simp only [List.filterMap_cons, h]
      exact ih hf.2
    · simp only [List.filterMap_cons, h, List.lookup]
      have hbe : (f == g) = false := by
        simp only [beq_eq_false_iff_ne, ne_eq]
        exact hf.1
      simp [hbe, ih hf.2]

theorem lookup_filterMap_outcome (env : Env) (cl : Option String) (cp : Option CustomDoc)
    (fs : List String) (hnd : fs.Nodup) :
    ∀ f ∈ fs, (fs.filterMap (scanFileOutcome env cl cp)).lookup f =
      (scanFileOutcome env cl cp f).map Prod.snd := by
  induction fs with
  | nil => intro f hf; cases hf
  | cons g rest ih =>
    intro f hf
    have hndr : rest.Nodup := (List.nodup_cons.mp hnd).2
    have hgr : g ∉ rest := (List.nodup_cons.mp hnd).1
    rcases List.mem_cons.mp hf with hfg | hfr
    · subst hfg
      rcases scanFileOutcome_shape env cl cp f with h | ⟨s, h⟩
      · simp only [List.filterMap_cons, h, Option.map_none']
        exact lookup_filterMap_none env cl cp rest f hgr
      · simp [List.filterMap_cons, h, List.lookup]
    · have hfg : f ≠ g := fun heq => hgr (heq ▸ hfr)
      rcases scanFileOutcome_shape env cl cp g with h | ⟨s, h⟩
      · simp only [List.filterMap_cons, h]
        exact ih hndr f hfr
      · simp only [List.filterMap_cons, h, List.lookup]
        have hbe : (f == g) = false := by
          simp only [beq_eq_false_iff_ne, ne_eq]
          exact hfg
        simp [hbe, ih hndr f hfr]

theorem selectSaved_spec (saved : ScanResults) :
    ∀ (fs : List String) (acc : ScanResults),
      fs.Nodup → (∀ k ∈ acc.map Prod.fst, k ∉ fs) →
      selectSaved saved acc fs =
        acc ++ fs.filterMap (fun f => (saved.lookup f).map (fun v => (f, v))) := by
  intro fs
  induction fs with
  | nil => intro acc _ _; simp [selectSaved]
  | cons f rest ih =>
    intro acc hnd hdisj
    have hndr : rest.Nodup := (List.nodup_cons.mp hnd).2
    have hfr : f ∉ rest := (List.nodup_cons.mp hnd).1
    have hdisjr : ∀ k ∈ acc.map Prod.fst, k ∉ rest :=
      fun k hk hmem => hdisj k hk (List.mem_cons_of_mem _ hmem)
    cases hl : saved.lookup f with
    | none =>
      simp only [selectSaved, hl]
      simp [ih acc hndr hdisjr, List.filterMap_cons, hl]
    | some v =>
      have hfacc : f ∉ acc.map Prod.fst := fun hmem =>
        hdisj f hmem (List.mem_cons_self _ _)
      have hins : dictInsert acc f v = acc ++ [(f, v)] := dictInsert_not_mem acc f v hfacc
      simp only [selectSaved, hl]
      rw [hins]
      have hdisj2 : ∀ k ∈ (acc ++ [(f, v)]).map Prod.fst, k ∉ rest := by
        intro k hk
        simp only [List.map_append, List.mem_append, List.map_cons, List.mem_cons,
          List.not_mem_nil, List.map_nil, or_false] at hk
        rcases hk with hk | hk
        · exact hdisjr k hk
        · subst hk; exact hfr
      simp [ih (acc ++ [(f, v)]) hndr hdisj2, List.filterMap_cons, hl]

/-- Re-filtering a scanned mapping along the very target list that produced
it reproduces the mapping exactly. -/
theorem selectSaved_roundtrip (env : Env) (cl : Option String) (cp : Option CustomDoc)
    (fs : List String) (hnd : fs.Nodup) :
    selectSaved (fs.filterMap (scanFileOutcome env cl cp)) [] fs =
      fs.filterMap (scanFileOutcome env cl cp) := by
  rw [selectSaved_spec _ fs [] hnd (by simp)]
  simp only [List.nil_append]
  apply List.filterMap_congr
  intro f hf
  have hl := lookup_filterMap_outcome env cl cp fs hnd f hf
  rcases scanFileOutcome_shape env cl cp f with h | ⟨s, h⟩
  · simp [hl, h]
  · simp [hl, h]

set_option maxHeartbeats 1600000 in
theorem validate_ok_excl (env : Env) (fp dp : Option String)
    (inc exc : Option (List String)) (data : Option Str) (u : Unit) (tr : List Ev)
    (h : _validate_data_path env fp dp inc exc data = (.ok u, tr)) :
    ¬(optStrTruthy fp = true ∧ optStrTruthy dp = true) ∧
    ¬(optStrTruthy fp = true ∧ optDataTruthy data = true) ∧
    ¬(optStrTruthy dp = true ∧ optDataTruthy data = true) ∧
    (optStrTruthy fp = true ∨ optStrTruthy dp = true ∨ optDataTruthy data = true) := by
  unfold _validate_data_path at h
  split_ifs at h
  all_goals simp only [Prod.mk.injEq] at h
  all_goals try exact absurd h.1 (fun hx => Except.noConfusion hx)
  all_goals refine ⟨?_, ?_, ?_, ?_⟩ <;>
      (cases ha : optStrTruthy fp <;> cases hb : optStrTruthy dp <;>
        cases hc : optDataTruthy data <;> simp_all)

theorem scan_secrets_ok_shape (env : Env) (fp dp : Option String) (rec : Bool)
    (inc exc : Option (List String)) (data : Option Str)
    (save : Bool) (spath cl : Option String) (cp : Option CustomDoc) (cof : Bool)
    (r : ScanResponse)
    (h : (scan_secrets env fp dp rec inc exc data save spath cl cp cof).1 = .ok r) :
    ∃ u vtr R ctr,
      _validate_data_path env fp dp inc exc data = (.ok u, vtr) ∧
      scanCore env data (scanTargetFiles env fp dp rec inc exc) cl cp cof = (.ok R, ctr) ∧
      ((save || optStrTruthy spath) = false → r = .inline (!R.isEmpty) R) ∧
      ((save || optStrTruthy spath) = true → R.isEmpty = true → r = .savedR false none []) ∧
      ((save || optStrTruthy spath) = true → R.isEmpty = false →
        ∃ q, r = .savedR true (some q) R) := by
  unfold scan_secrets at h
  cases hv : _validate_data_path env fp dp inc exc data with
  | mk vr vtr =>
  rw [hv] at h
  cases vr with
  | error e => simp at h
  | ok u =>
    simp only [] at h
    cases hc : scanCore env data (scanTargetFiles env fp dp rec inc exc) cl cp cof with
    | mk cr ctr =>
    rw [hc] at h
    cases cr with
    | error e => simp at h
    | ok R =>
      refine ⟨u, vtr, R, ctr, rfl, rfl, ?_, ?_, ?_⟩
      · intro hsf
        rw [hsf] at h
        simp at h
        first | rfl | exact h.symm | simp [h]
      · intro hst hre
        rw [hst] at h
        simp [hre] at h
        first | rfl | exact h.symm | simp [h]
      · intro hst hre
        rw [hst] at h
        simp [hre] at h
        first | exact ⟨_, rfl⟩ | exact ⟨_, h.symm⟩

set_option maxHeartbeats 1600000 in
theorem saved_filter_reproduces (env : Env) (fp dp : Option String) (rec : Bool)
    (inc exc : Option (List String)) (data : Option Str)
    (cl : Option String) (cp : Option CustomDoc) (cof : Bool)
    (u : Unit) (vtr : List Ev) (R : ScanResults) (ctr : List Ev)
    (savedPath : String) (content : Str)
    (hnodup : (scanTargetFiles env fp dp rec inc exc).Nodup)
    (hv : _validate_data_path env fp dp inc exc data = (.ok u, vtr))
    (hc : scanCore env data (scanTargetFiles env fp dp rec inc exc) cl cp cof = (.ok R, ctr))
    (hre : R.isEmpty = false)
    (hfile : env.isFile savedPath = true)
    (hread : env.readFile savedPath = .ok content)
    (hparse : env.parseScanResults content = .ok R) :
    (_get_scan_results_from_saved_file env savedPath fp dp rec inc exc data).1 = .ok R := by
  obtain ⟨hx1, hx2, hx3, hx4⟩ := validate_ok_excl env fp dp inc exc data u vtr hv
  by_cases hdata : optDataTruthy data = true
  · have hfp : optStrTruthy fp = false := by
      cases hfpv : optStrTruthy fp
      · rfl
      · exact absurd ⟨hfpv, hdata⟩ hx2
    have hdp : optStrTruthy dp = false := by
      cases hdpv : optStrTruthy dp
      · rfl
      · exact absurd ⟨hdpv, hdata⟩ hx3
    unfold scanCore at hc
    rw [if_pos hdata] at hc
    cases hscan : _scan_secrets_for_string env (data.getD []) cl cp with
    | error e => rw [hscan] at hc; simp at hc
    | ok o =>
      rw [hscan] at hc
      simp only [] at hc
      have hR : (if (o.getD []).isEmpty then ([] : ScanResults)
          else [("raw_data", o.getD [])]) = R := by
        have := congrArg Prod.fst hc
        simpa using this
      by_cases hoe : (o.getD []).isEmpty
      · rw [if_pos hoe] at hR
        rw [← hR] at hre
        simp at hre
      · rw [if_neg hoe] at hR
        subst hR
        simp [_get_scan_results_from_saved_file, hfile, hread, hparse, hv, hfp, hdp,
          List.lookup]
  · have hdataf : optDataTruthy data = false := by
      cases hdv : optDataTruthy data
      · rfl
      · exact absurd hdv hdata
    unfold scanCore at hc
    rw [hdataf] at hc
    simp only [Bool.false_eq_true, if_false] at hc
    by_cases htf : (scanTargetFiles env fp dp rec inc exc).isEmpty = true
    · rw [htf] at hc
      simp at hc
      rw [hc.1] at hre
      simp at hre
    · have htf2 : (scanTargetFiles env fp dp rec inc exc).isEmpty = false := by
        cases hx : (scanTargetFiles env fp dp rec inc exc).isEmpty
        · rfl
        · exact absurd hx htf
      rw [htf2] at hc
      simp only [Bool.not_false, if_true] at hc
      have hloop : (scanFilesLoop env cl cp cof []
          (scanTargetFiles env fp dp rec inc exc)).1 = .ok R := by rw [hc]
      have hRchar : R = (scanTargetFiles env fp dp rec inc exc).filterMap
          (scanFileOutcome env cl cp) := by
        simpa using scanFilesLoop_ok env cl cp cof _ [] R hnodup (by simp) hloop
      rcases hx4 with hfpt | hdpt | hdt
      · have hdp : optStrTruthy dp = false := by
          cases hdpv : optStrTruthy dp
          · rfl
          · exact absurd ⟨hfpt, hdpv⟩ hx1
        have hTF : scanTargetFiles env fp dp rec inc exc = [env.abspath (fp.getD "")] := by
          simp [scanTargetFiles, hfpt, hdp]
        rw [hTF] at hRchar
        rcases scanFileOutcome_shape env cl cp (env.abspath (fp.getD "")) with hsh | ⟨s, hsh⟩
        · rw [show ([env.abspath (fp.getD "")].filterMap (scanFileOutcome env cl cp)) =
              ([] : ScanResults) by simp [hsh]] at hRchar
          rw [hRchar] at hre
          simp at hre
        · rw [show ([env.abspath (fp.getD "")].filterMap (scanFileOutcome env cl cp)) =
              [(env.abspath (fp.getD ""), s)] by simp [hsh]] at hRchar
          subst hRchar
          simp [_get_scan_results_from_saved_file, hfile, hread, hparse, hv, hfpt,
            List.lookup]
      · have hfpf : optStrTruthy fp = false := by
          cases hfpv : optStrTruthy fp
          · rfl
          · exact absurd ⟨hfpv, hdpt⟩ hx1
        have hTF : scanTargetFiles env fp dp rec inc exc =
            _get_files_from_directory env (env.abspath (dp.getD "")) rec inc exc := by
          simp [scanTargetFiles, hfpf, hdpt]
        have hnd2 : (_get_files_from_directory env (env.abspath (dp.getD ""))
            rec inc exc).Nodup := hTF ▸ hnodup
        have hsel := selectSaved_roundtrip env cl cp
          (_get_files_from_directory env (env.abspath (dp.getD "")) rec inc exc) hnd2
        rw [hTF] at hRchar
        subst hRchar
        simp [_get_scan_results_from_saved_file, hfile, hread, hparse, hv, hfpf, hdpt, hsel]
      · rw [hdataf] at hdt
        exact absurd hdt (by simp)

/-- C2: round trip of scan persistence.  For any target (file, directory with
the same recursive/include/exclude options, or inline data): if the unsaved
scan returns the in-memory mapping `M`, the saving scan persists a result file
with content `S`, and reading the saved file back parses to `S`, then `S` is
exactly `M`, and filtering the loaded result by the same target (via
`_get_scan_results_from_saved_file`) reproduces `M` exactly, keyed
identically. -/
theorem c2_scan_persist_roundtrip (env : Env) (fp dp : Option String) (rec : Bool)
    (inc exc : Option (List String)) (data : Option Str)
    (spath cl : Option String) (cp : Option CustomDoc) (cof : Bool)
    (b : Bool) (M S : ScanResults) (p : Option String)
    (savedPath : String) (content : Str)
    (hnodup : (scanTargetFiles env fp dp rec inc exc).Nodup)
    (hmem : (scan_secrets env fp dp rec inc exc data false none cl cp cof).1 =
      .ok (.inline b M))
    (hsave : (scan_secrets env fp dp rec inc exc data true spath cl cp cof).1 =
      .ok (.savedR true p S))
    (hfile : env.isFile savedPath = true)
    (hread : env.readFile savedPath = .ok content)
    (hparse : env.parseScanResults content = .ok S) :
    S = M ∧
    (_get_scan_results_from_saved_file env savedPath fp dp rec inc exc data).1 = .ok M := by
  obtain ⟨u, vtr, R, ctr, hv, hc, hinl, _, _⟩ :=
    scan_secrets_ok_shape env fp dp rec inc exc data false none cl cp cof _ hmem
  obtain ⟨u2, vtr2, R2, ctr2, hv2, hc2, _, hemp2, hsv2⟩ :=
    scan_secrets_ok_shape env fp dp rec inc exc data true spath cl cp cof _ hsave
  have hRR : R2 = R := by
    have h := hc.symm.trans hc2
    injection h with h1 h2
    injection h1 with h1
    exact h1.symm
  have hMR : M = R := by
    have h1 := hinl rfl
    simp only [ScanResponse.inline.injEq] at h1
    exact h1.2
  have hre2 : R2.isEmpty = false := by
    cases hx : R2.isEmpty
    · rfl
    · exfalso
      have h := hemp2 (by simp) hx
      simp at h
  have hSR : S = R2 := by
    obtain ⟨q, hq⟩ := hsv2 (by simp) hre2
    simp only [ScanResponse.savedR.injEq] at hq
    exact hq.2.2
  have hre : R.isEmpty = false := hRR ▸ hre2
  constructor
  · rw [hSR, hRR, hMR]
  · have hparse2 : env.parseScanResults content = .ok R := by
      rw [hparse, hSR, hRR]
    rw [hMR]
    exact saved_filter_reproduces env fp dp rec inc exc data cl cp cof u vtr R ctr
      savedPath content hnodup hv hc hre hfile hread hparse2

/-- The in-memory mapping produced by scanning the one-file round-trip
environment below. -/
def c2M : ScanResults :=
  [("/a.txt", [{ secret_name := ['n'], secret_value := ['s'], secret_index := (0, 1), redaction_token := ['t'] }])]

/-- A concrete environment with one secret-bearing file `a.txt` and a saved
result file `r.json` whose JSON parses back to the persisted mapping. -/
def c2Env : Env where
  isFile := fun s => s == "a.txt" || s == "r.json"
  isDir := fun _ => false
  walk := fun _ => []
  listdir := fun _ => []
  abspath := fun s => "/" ++ s
  readFile := fun s =>
    if s == "/a.txt" then .ok ['s']
    else if s == "r.json" then .ok ['J']
    else .error (.ioError "missing")
  fnmatch := fun _ _ => false
  highPatterns := [{ id := "p1" }]
  mediumPatterns := []
  lowPatterns := []
  loadCustomPattern := fun _ => { id := "c" }
  detectSecrets := fun ps c =>
    if !ps.isEmpty && c == ['s'] then
      [{ name := ['n'], start := 0, stop := 1, redaction_token := ['t'] }]
    else []
  parseScanResults := fun c => if c == ['J'] then .ok c2M else .error (.valueError "bad")
  autoResultPath := "auto.json"
  promptAnswer := true

theorem c2_scan_persist_roundtrip_witness :
    c2M = c2M ∧
    (_get_scan_results_from_saved_file c2Env "r.json" (some "a.txt") none false
      none none none).1 = .ok c2M :=
  c2_scan_persist_roundtrip c2Env (some "a.txt") none false none none none
    (some "r.json") none none false true c2M c2M (some "/r.json") "r.json" ['J']
    (by decide) (by decide) (by decide) (by decide) (by decide) (by decide)
